import Mathlib

/-!
# SimpleDB operator: the reconciliation pass

A shallow embedding of `internal/controller/simpledb_controller.go` and of the
types of `api/v1/simpledb_types.go` it works on.

* Kubernetes objects are records holding the fields the controller reads or writes.
* `int32` values are `Int`: the controller only copies and compares them.
* A Go pointer that may be nil (`*int32`, `*metav1.Condition`) is an `Option`.
* The API client is a record of state transformers over an arbitrary backend
  state `σ`; every call the pass issues is recorded, with its answer, in the
  pass's list of calls.
* A Go `error` is a value of `Err`; `nil` is `none`.
-/

namespace SimpleDBOperator

/-! ## Data model -/

/-- A Go `error` as the controller sees it: `errors.IsNotFound` is the only
question the controller asks of it. -/
structure Err where
  IsNotFound : Bool
  text : String
deriving DecidableEq, Repr

/-- The type `metav1.Time`: the zero time, or a clock reading. `metav1.Now()` yields a
clock reading, never the zero time. -/
inductive Time where
  | zero
  | unix (sec : Nat)
deriving DecidableEq, Repr

/-- The method `Time.IsZero`. -/
def Time.IsZero : Time → Bool
  | .zero => true
  | .unix _ => false

/-- The constant `metav1.ConditionTrue`. -/
def ConditionTrue : String := "True"

/-- The constant `metav1.ConditionFalse`. -/
def ConditionFalse : String := "False"

/-- The type `metav1.Condition`; `ConditionStatus` is a Go string type. -/
structure Condition where
  Type_ : String
  Status : String
  ObservedGeneration : Int := 0
  LastTransitionTime : Time
  Reason : String
  Message : String
deriving DecidableEq, Repr

/-- The type `types.NamespacedName`. -/
structure NamespacedName where
  Namespace : String
  Name : String
deriving DecidableEq, Repr

/-- The type `ctrl.Request`. -/
structure Request where
  NamespacedName : NamespacedName
deriving DecidableEq, Repr

/-- The type `ctrl.Result`. -/
structure Result where
  Requeue : Bool := false
  RequeueAfter : Nat := 0
deriving DecidableEq, Repr

/-- The type `metav1.OwnerReference`. -/
structure OwnerReference where
  APIVersion : String
  Kind : String
  Name : String
  UID : String
  Controller : Option Bool
  BlockOwnerDeletion : Option Bool
deriving DecidableEq, Repr

/-- The struct `SimpleDBSpec` of `api/v1/simpledb_types.go`. -/
structure SimpleDBSpec where
  Replicas : Int
  Image : String
  DbName : String
deriving DecidableEq, Repr

/-- The struct `SimpleDBStatus` of `api/v1/simpledb_types.go`. -/
structure SimpleDBStatus where
  Conditions : List Condition := []
deriving DecidableEq, Repr

/-- The struct `SimpleDB` of `api/v1/simpledb_types.go`, with the fields of its embedded
`ObjectMeta` that the controller reads. -/
structure SimpleDB where
  Name : String
  Namespace : String
  UID : String := ""
  Spec : SimpleDBSpec
  Status : SimpleDBStatus := {}
deriving DecidableEq, Repr

set_option linter.dupNamespace false in
/-- The type `corev1.ContainerPort`. -/
structure ContainerPort where
  Name : String
  ContainerPort : Int
deriving DecidableEq, Repr

/-- The type `corev1.EnvVar`. -/
structure EnvVar where
  Name : String
  Value : String
deriving DecidableEq, Repr

/-- The type `corev1.Container`. -/
structure Container where
  Name : String
  Image : String
  Ports : List ContainerPort
  Env : List EnvVar
deriving DecidableEq, Repr

/-- The type `corev1.PodTemplateSpec`: its labels and its containers. A Go
`map[string]string` is a list of key/value pairs. -/
structure PodTemplateSpec where
  Labels : List (String × String)
  Containers : List Container
deriving DecidableEq, Repr

/-- The type `appsv1.DeploymentSpec`; `Replicas` is a `*int32`, `Selector` a pointer to a
label selector given by its match-labels. -/
structure DeploymentSpec where
  Replicas : Option Int
  Selector : Option (List (String × String))
  Template : PodTemplateSpec
deriving DecidableEq, Repr

/-- The type `appsv1.DeploymentStatus`: the observed counters. -/
structure DeploymentStatus where
  UpdatedReplicas : Int := 0
  ReadyReplicas : Int := 0
  AvailableReplicas : Int := 0
deriving DecidableEq, Repr

/-- The type `appsv1.Deployment`. -/
structure Deployment where
  Name : String
  Namespace : String
  OwnerReferences : List OwnerReference := []
  Spec : DeploymentSpec
  Status : DeploymentStatus := {}
deriving DecidableEq, Repr

/-! ## The backend interface -/

/-- The methods of `client.Client` that `Reconcile` calls, each a transformer of the
backend state `σ`. `Get` answers with the object or an error; the writes answer with an
error or `nil`. -/
structure Client (σ : Type) where
  GetSimpleDB : NamespacedName → σ → Except Err SimpleDB × σ
  GetDeployment : NamespacedName → σ → Except Err Deployment × σ
  Create : Deployment → σ → Option Err × σ
  Update : Deployment → σ → Option Err × σ
  StatusUpdate : SimpleDB → σ → Option Err × σ

/-- The reconciler's `*runtime.Scheme`, as far as the controller uses it:
`ctrl.SetControllerReference(owner, controlled, scheme)` either fails or sets the owner
references of `controlled`. -/
structure Scheme where
  controllerReference : SimpleDB → Deployment → Except Err (List OwnerReference)

/-- The struct `SimpleDBReconciler`. -/
structure SimpleDBReconciler (σ : Type) where
  Client : Client σ
  Scheme : Scheme

/-- One backend call issued by a pass, with the error it answered (`none` for `nil`). -/
inductive Call where
  | GetSimpleDB (key : NamespacedName) (err : Option Err)
  | GetDeployment (key : NamespacedName) (err : Option Err)
  | Create (dep : Deployment) (err : Option Err)
  | Update (dep : Deployment) (err : Option Err)
  | StatusUpdate (obj : SimpleDB) (err : Option Err)
deriving DecidableEq, Repr

/-- A backend write: `Create`, `Update` or the status write. -/
def Call.isWrite : Call → Bool
  | .Create _ _ => true
  | .Update _ _ => true
  | .StatusUpdate _ _ => true
  | _ => false

/-- The error a call answered. -/
def Call.err : Call → Option Err
  | .GetSimpleDB _ e => e
  | .GetDeployment _ e => e
  | .Create _ e => e
  | .Update _ e => e
  | .StatusUpdate _ e => e

/-- A call is a `Get`. -/
def Call.isGet : Call → Bool
  | .GetSimpleDB _ _ => true
  | .GetDeployment _ _ => true
  | _ => false

/-- How a pass ends: it returns `(ctrl.Result, error)`, or it dereferences a nil pointer. -/
inductive Outcome where
  | returned (res : Result) (err : Option Err)
  | nilDereference
deriving DecidableEq, Repr

/-- A finished pass: how it ended, the backend calls it issued in order, and the
backend state it left. -/
structure Pass (σ : Type) where
  outcome : Outcome
  calls : List Call
  state : σ

/-! ## Library functions the controller calls -/

/-- The function `meta.FindStatusCondition` of `k8s.io/apimachinery/pkg/api/meta` (a
dependency of the controller, called at line 114): the first condition of the given type,
or nil. -/
def FindStatusCondition (conditions : List Condition) (conditionType : String) :
    Option Condition :=
  conditions.find? (fun c => c.Type_ == conditionType)

/-- Apply `f` to the first element satisfying `p`: the in-place write through the pointer
that `FindStatusCondition` returns. -/
def updateFirst (p : Condition → Bool) (f : Condition → Condition) :
    List Condition → List Condition
  | [] => []
  | c :: cs => if p c then f c :: cs else c :: updateFirst p f cs

/-- What `meta.SetStatusCondition` does to an existing condition of the type, after the
library's contract ("all fields of the existing condition are updated to newCondition,
LastTransitionTime is set to now if the new status differs from the old status"): when the
status differs it is overwritten and the transition time taken from the new condition (or
from the clock when that is zero); reason, message and observed generation are overwritten
in every case. -/
def overwriteCondition (newCondition : Condition) (timeNow : Time) (existing : Condition) :
    Condition :=
  let c1 : Condition :=
    if existing.Status ≠ newCondition.Status then
      { existing with
        Status := newCondition.Status
        LastTransitionTime :=
          if !newCondition.LastTransitionTime.IsZero then newCondition.LastTransitionTime
          else timeNow }
    else existing
  { c1 with
    Reason := newCondition.Reason
    Message := newCondition.Message
    ObservedGeneration := newCondition.ObservedGeneration }

/-- The function `meta.SetStatusCondition` of `k8s.io/apimachinery/pkg/api/meta` (a
dependency of the controller, called at line 121), on a non-nil slice; `timeNow` is the
library's own reading of the clock. A condition of a new type is appended (its transition
time set from the clock if unset); an existing one is overwritten in place, its
`LastTransitionTime` changing only when the status changes. The `changed` flag it returns
is dropped by the caller. -/
def SetStatusCondition (conditions : List Condition) (newCondition : Condition)
    (timeNow : Time) : List Condition :=
  match FindStatusCondition conditions newCondition.Type_ with
  | none =>
    conditions ++
      [if newCondition.LastTransitionTime.IsZero then
        { newCondition with LastTransitionTime := timeNow }
       else newCondition]
  | some _ =>
    updateFirst (fun c => c.Type_ == newCondition.Type_)
      (overwriteCondition newCondition timeNow) conditions

/-- The function `ctrl.SetControllerReference(owner, controlled, scheme)`: on success the
owner references of `controlled` are set, nothing else of it changes. -/
def SetControllerReference (owner : SimpleDB) (controlled : Deployment) (scheme : Scheme) :
    Except Err Deployment :=
  match scheme.controllerReference owner controlled with
  | .error err => .error err
  | .ok refs => .ok { controlled with OwnerReferences := refs }

/-! ## The controller -/

/-- The function `labelsForSimpleDB`. -/
def labelsForSimpleDB (name : String) : List (String × String) :=
  [("app", "simpledb"), ("simpledb_cr", name)]

/-- The method `SimpleDBReconciler.deploymentForSimpleDB`. -/
def deploymentForSimpleDB {σ : Type} (r : SimpleDBReconciler σ) (m : SimpleDB) :
    Except Err Deployment :=
  let labels := labelsForSimpleDB m.Name
  let replicas := m.Spec.Replicas
  let dep : Deployment :=
    { Name := m.Name
      Namespace := m.Namespace
      Spec :=
        { Replicas := some replicas
          Selector := some labels
          Template :=
            { Labels := labels
              Containers :=
                [{ Name := "simpledb"
                   Image := m.Spec.Image
                   Ports := [{ Name := "db", ContainerPort := 5432 }]
                   Env := [{ Name := "POSTGRES_PASSWORD", Value := "changeme" }] }] } } }
  match SetControllerReference m dep r.Scheme with
  | .error err => .error err
  | .ok dep => .ok dep

/-- Step 5 of `Reconcile`: the readiness test on the fetched Deployment. -/
def ready (found : Deployment) (size : Int) : Bool :=
  found.Status.UpdatedReplicas == size &&
    found.Status.ReadyReplicas == size &&
    found.Status.AvailableReplicas == size

/-- Step 5 of `Reconcile`: the Ready condition built from the readiness test, stamped with
`metav1.Now()`. -/
def readyCondition (isReady : Bool) (now : Nat) : Condition :=
  let condition : Condition :=
    { Type_ := "Ready"
      Status := ConditionFalse
      Reason := "Creating"
      Message := "Database is being created"
      LastTransitionTime := .unix now }
  if isReady then
    { condition with
      Status := ConditionTrue
      Reason := "Available"
      Message := "Database is ready" }
  else condition

/-- Step 6 of `Reconcile`, entered with the calls issued so far: the status write is
skipped when the stored Ready condition has the computed status and reason. -/
def reconcileStatus {σ : Type} (r : SimpleDBReconciler σ) (now : Nat) (simpledb : SimpleDB)
    (condition : Condition) (calls : List Call) (s : σ) : Pass σ :=
  let existing := FindStatusCondition simpledb.Status.Conditions "Ready"
  let unchanged : Bool :=
    match existing with
    | none => false
    | some existing => existing.Status == condition.Status && existing.Reason == condition.Reason
  if unchanged then ⟨.returned {} none, calls, s⟩
  else
    let simpledb : SimpleDB :=
      { simpledb with
        Status :=
          { simpledb.Status with
            Conditions :=
              SetStatusCondition simpledb.Status.Conditions condition (.unix now) } }
    match r.Client.StatusUpdate simpledb s with
    | (some err, s) => ⟨.returned {} (some err), calls ++ [.StatusUpdate simpledb (some err)], s⟩
    | (none, s) => ⟨.returned {} none, calls ++ [.StatusUpdate simpledb none], s⟩

/-- The method `SimpleDBReconciler.Reconcile`: one pass for the request `req`, started in
the backend state `s`, with `now` the reading of `metav1.Now()`. -/
def Reconcile {σ : Type} (r : SimpleDBReconciler σ) (now : Nat) (req : Request) (s : σ) :
    Pass σ :=
  -- 1. Fetch SimpleDB
  match r.Client.GetSimpleDB req.NamespacedName s with
  | (.error err, s) =>
    let calls := [Call.GetSimpleDB req.NamespacedName (some err)]
    if err.IsNotFound then ⟨.returned {} none, calls, s⟩
    else ⟨.returned {} (some err), calls, s⟩
  | (.ok simpledb, s) =>
    let calls := [Call.GetSimpleDB req.NamespacedName none]
    -- 2. Fetch Deployment
    let key : NamespacedName := { Name := simpledb.Name, Namespace := simpledb.Namespace }
    match r.Client.GetDeployment key s with
    | (.error err, s) =>
      let calls := calls ++ [Call.GetDeployment key (some err)]
      -- 3. Create Deployment if missing
      if err.IsNotFound then
        match deploymentForSimpleDB r simpledb with
        | .error err => ⟨.returned {} (some err), calls, s⟩
        | .ok dep =>
          match r.Client.Create dep s with
          | (some err, s) => ⟨.returned {} (some err), calls ++ [.Create dep (some err)], s⟩
          | (none, s) => ⟨.returned { Requeue := true } none, calls ++ [.Create dep none], s⟩
      else ⟨.returned {} (some err), calls, s⟩
    | (.ok found, s) =>
      let calls := calls ++ [Call.GetDeployment key none]
      -- 4. Reconcile replicas
      let size := simpledb.Spec.Replicas
      match found.Spec.Replicas with
      | none => ⟨.nilDereference, calls, s⟩
      | some replicas =>
        if replicas ≠ size then
          let found : Deployment := { found with Spec := { found.Spec with Replicas := some size } }
          match r.Client.Update found s with
          | (some err, s) => ⟨.returned {} (some err), calls ++ [.Update found (some err)], s⟩
          | (none, s) => ⟨.returned { Requeue := true } none, calls ++ [.Update found none], s⟩
        else
          -- 5. Compute readiness
          let condition := readyCondition (ready found size) now
          -- 6. Avoid useless status updates
          reconcileStatus r now simpledb condition calls s

/-! ## Backends used to run the controller -/

/-- The answer of a `Get` for an object that does not exist. -/
def errNotFound : Err := { IsNotFound := true, text := "not found" }

/-- The answer of a write that the backend refuses. -/
def errConflict : Err := { IsNotFound := false, text := "conflict" }

/-- A backend state: the stored SimpleDB object and the stored Deployment, if any. -/
structure Cluster where
  simpledb : Option SimpleDB
  deployment : Option Deployment
deriving DecidableEq, Repr

/-- What a backend that reflects requested replica counts reports for a stored Deployment:
every observed counter equals the requested replica count. -/
def reflectReplicas (dep : Deployment) : Deployment :=
  match dep.Spec.Replicas with
  | none => dep
  | some n =>
    { dep with Status := { UpdatedReplicas := n, ReadyReplicas := n, AvailableReplicas := n } }

/-- The backend of the convergence property: every write succeeds and is stored, a stored
Deployment reports counters equal to its requested replica count, and a `Get` answers
the stored object of that name or NotFound. -/
def faithfulClient : Client Cluster where
  GetSimpleDB key s :=
    match s.simpledb with
    | some m =>
      if m.Name = key.Name ∧ m.Namespace = key.Namespace then (.ok m, s)
      else (.error errNotFound, s)
    | none => (.error errNotFound, s)
  GetDeployment key s :=
    match s.deployment with
    | some d =>
      if d.Name = key.Name ∧ d.Namespace = key.Namespace then (.ok d, s)
      else (.error errNotFound, s)
    | none => (.error errNotFound, s)
  Create dep s := (none, { s with deployment := some (reflectReplicas dep) })
  Update dep s := (none, { s with deployment := some (reflectReplicas dep) })
  StatusUpdate obj s :=
    (none, { s with simpledb := s.simpledb.map (fun m => { m with Status := obj.Status }) })

/-- A backend without state that gives fixed answers: used to run a pass on chosen
answers, failures included. -/
def fixedClient (db : Except Err SimpleDB) (dep : Except Err Deployment)
    (createErr updateErr statusErr : Option Err) : Client Unit where
  GetSimpleDB _ s := (db, s)
  GetDeployment _ s := (dep, s)
  Create _ s := (createErr, s)
  Update _ s := (updateErr, s)
  StatusUpdate _ s := (statusErr, s)

/-- A scheme in which the SimpleDB kind is registered: the controller reference names the
owner. -/
def registeredScheme : Scheme where
  controllerReference owner _ :=
    .ok [{ APIVersion := "database.my.domain/v1", Kind := "SimpleDB", Name := owner.Name,
           UID := owner.UID, Controller := some true, BlockOwnerDeletion := some true }]

/-- Sample object: three replicas of postgres:14, no stored conditions. -/
def sampleDB : SimpleDB :=
  { Name := "orders-db", Namespace := "default",
    Spec := { Replicas := 3, Image := "postgres:14", DbName := "orders" } }

/-- Sample request for the sample object. -/
def sampleReq : Request := { NamespacedName := { Namespace := "default", Name := "orders-db" } }

/-- Sample Deployment of the sample object with `replicas` requested and the given observed
counters. -/
def sampleDeployment (replicas : Option Int) (updated ready available : Int) : Deployment :=
  { Name := "orders-db", Namespace := "default",
    Spec := { Replicas := replicas, Selector := some (labelsForSimpleDB "orders-db"),
              Template := { Labels := labelsForSimpleDB "orders-db", Containers := [] } },
    Status := { UpdatedReplicas := updated, ReadyReplicas := ready,
                AvailableReplicas := available } }

/-- The sample reconciler: the faithful backend and a scheme that knows the SimpleDB kind. -/
def sampleReconciler : SimpleDBReconciler Cluster :=
  { Client := faithfulClient, Scheme := registeredScheme }

/-- A reconciler over the backend of fixed answers, with the SimpleDB kind registered. -/
def fixedReconciler (db : Except Err SimpleDB) (dep : Except Err Deployment)
    (createErr updateErr statusErr : Option Err) : SimpleDBReconciler Unit :=
  { Client := fixedClient db dep createErr updateErr statusErr, Scheme := registeredScheme }

/-- The sample object with the given stored conditions. -/
def sampleDBWith (conditions : List Condition) : SimpleDB :=
  { sampleDB with Status := { Conditions := conditions } }

/-- A stored Ready condition with status True and a reason other than the controller's. -/
def restoredReady : Condition :=
  { Type_ := "Ready", Status := ConditionTrue, Reason := "Restored",
    Message := "Database was restored", LastTransitionTime := .unix 5 }

/-- A stored Ready condition with the controller's status and reason for a ready database,
and a message of its own. -/
def availableReady : Condition :=
  { Type_ := "Ready", Status := ConditionTrue, Reason := "Available",
    Message := "All replicas are up", LastTransitionTime := .unix 7 }

/-- A stored condition of another type. -/
def progressing : Condition :=
  { Type_ := "Progressing", Status := ConditionFalse, Reason := "Idle",
    Message := "Nothing is rolling out", LastTransitionTime := .unix 3 }

/-- The condition list a status write of the pass carries, if the pass issues one. -/
def Pass.writtenConditions {σ : Type} (p : Pass σ) : Option (List Condition) :=
  p.calls.findSome? fun c =>
    match c with
    | .StatusUpdate obj _ => some obj.Status.Conditions
    | _ => none

/-- The condition list the object holds when the pass ends: the list handed to the status
write if the pass issues one, else the stored list. -/
def Pass.conditionsAfter {σ : Type} (p : Pass σ) (stored : List Condition) : List Condition :=
  match p.writtenConditions with
  | some conditions => conditions
  | none => stored

/-- A write to the Deployment: `Create` or `Update`. -/
def Call.isDeploymentWrite : Call → Bool
  | .Create _ _ => true
  | .Update _ _ => true
  | _ => false

/-- A Deployment of the sample object that requests 3 replicas and otherwise differs from
what the builder would produce: other image, port, environment, labels and owner. -/
def driftedDeployment : Deployment :=
  { Name := "orders-db", Namespace := "default",
    OwnerReferences := [],
    Spec :=
      { Replicas := some 3, Selector := some [("app", "legacy")],
        Template :=
          { Labels := [("app", "legacy"), ("tier", "db")],
            Containers :=
              [{ Name := "mysql", Image := "mysql:8",
                 Ports := [{ Name := "sql", ContainerPort := 3306 }],
                 Env := [{ Name := "MYSQL_ROOT_PASSWORD", Value := "secret" }] }] } },
    Status := { UpdatedReplicas := 3, ReadyReplicas := 3, AvailableReplicas := 3 } }

/-- The sample object asking for `replicas` replicas. -/
def sampleDBOf (replicas : Int) : SimpleDB :=
  { sampleDB with Spec := { sampleDB.Spec with Replicas := replicas } }

/-! ## Equations of the pass, one per path -/

section paths

variable {σ : Type} (r : SimpleDBReconciler σ) (now : Nat) (req : Request)

theorem Reconcile_getSimpleDB_error (s s1 : σ) (err : Err)
    (hget : r.Client.GetSimpleDB req.NamespacedName s = (.error err, s1)) :
    Reconcile r now req s =
      ⟨.returned {} (if err.IsNotFound then none else some err),
        [.GetSimpleDB req.NamespacedName (some err)], s1⟩ := by
  unfold Reconcile
  rw [hget]
  by_cases h : err.IsNotFound = true <;> simp [h]

theorem Reconcile_getDeployment_error (s s1 s2 : σ) (m : SimpleDB) (err : Err)
    (hget : r.Client.GetSimpleDB req.NamespacedName s = (.ok m, s1))
    (hdep : r.Client.GetDeployment ⟨m.Namespace, m.Name⟩ s1 = (.error err, s2))
    (hnf : err.IsNotFound = false) :
    Reconcile r now req s =
      ⟨.returned {} (some err),
        [.GetSimpleDB req.NamespacedName none, .GetDeployment ⟨m.Namespace, m.Name⟩ (some err)],
        s2⟩ := by
  unfold Reconcile
  rw [hget]
  simp only []
  rw [hdep]
  simp [hnf]

theorem Reconcile_build_error (s s1 s2 : σ) (m : SimpleDB) (err e : Err)
    (hget : r.Client.GetSimpleDB req.NamespacedName s = (.ok m, s1))
    (hdep : r.Client.GetDeployment ⟨m.Namespace, m.Name⟩ s1 = (.error err, s2))
    (hnf : err.IsNotFound = true)
    (hbuild : deploymentForSimpleDB r m = .error e) :
    Reconcile r now req s =
      ⟨.returned {} (some e),
        [.GetSimpleDB req.NamespacedName none, .GetDeployment ⟨m.Namespace, m.Name⟩ (some err)],
        s2⟩ := by
  unfold Reconcile
  rw [hget]
  simp only []
  rw [hdep]
  simp [hnf, hbuild]

theorem Reconcile_create (s s1 s2 s3 : σ) (m : SimpleDB) (err : Err) (dep : Deployment)
    (res : Option Err)
    (hget : r.Client.GetSimpleDB req.NamespacedName s = (.ok m, s1))
    (hdep : r.Client.GetDeployment ⟨m.Namespace, m.Name⟩ s1 = (.error err, s2))
    (hnf : err.IsNotFound = true)
    (hbuild : deploymentForSimpleDB r m = .ok dep)
    (hcreate : r.Client.Create dep s2 = (res, s3)) :
    Reconcile r now req s =
      ⟨.returned { Requeue := res.isNone } res,
        [.GetSimpleDB req.NamespacedName none, .GetDeployment ⟨m.Namespace, m.Name⟩ (some err),
          .Create dep res], s3⟩ := by
  unfold Reconcile
  rw [hget]
  simp only []
  rw [hdep]
  simp only [hnf, hbuild, if_true]
  rw [hcreate]
  cases res <;> simp

theorem Reconcile_nil_replicas (s s1 s2 : σ) (m : SimpleDB) (found : Deployment)
    (hget : r.Client.GetSimpleDB req.NamespacedName s = (.ok m, s1))
    (hdep : r.Client.GetDeployment ⟨m.Namespace, m.Name⟩ s1 = (.ok found, s2))
    (hnil : found.Spec.Replicas = none) :
    Reconcile r now req s =
      ⟨.nilDereference,
        [.GetSimpleDB req.NamespacedName none, .GetDeployment ⟨m.Namespace, m.Name⟩ none],
        s2⟩ := by
  unfold Reconcile
  rw [hget]
  simp only []
  rw [hdep]
  simp [hnil]

theorem Reconcile_update (s s1 s2 s3 : σ) (m : SimpleDB) (found : Deployment) (n : Int)
    (res : Option Err)
    (hget : r.Client.GetSimpleDB req.NamespacedName s = (.ok m, s1))
    (hdep : r.Client.GetDeployment ⟨m.Namespace, m.Name⟩ s1 = (.ok found, s2))
    (hrep : found.Spec.Replicas = some n) (hne : n ≠ m.Spec.Replicas)
    (hupdate : r.Client.Update
      { found with Spec := { found.Spec with Replicas := some m.Spec.Replicas } } s2 = (res, s3)) :
    Reconcile r now req s =
      ⟨.returned { Requeue := res.isNone } res,
        [.GetSimpleDB req.NamespacedName none, .GetDeployment ⟨m.Namespace, m.Name⟩ none,
          .Update { found with Spec := { found.Spec with Replicas := some m.Spec.Replicas } } res],
        s3⟩ := by
  unfold Reconcile
  rw [hget]
  simp only []
  rw [hdep]
  simp only [hrep, hne, ne_eq, not_false_eq_true, if_true]
  rw [hupdate]
  cases res <;> simp

theorem Reconcile_status (s s1 s2 : σ) (m : SimpleDB) (found : Deployment)
    (hget : r.Client.GetSimpleDB req.NamespacedName s = (.ok m, s1))
    (hdep : r.Client.GetDeployment ⟨m.Namespace, m.Name⟩ s1 = (.ok found, s2))
    (hrep : found.Spec.Replicas = some m.Spec.Replicas) :
    Reconcile r now req s =
      reconcileStatus r now m (readyCondition (ready found m.Spec.Replicas) now)
        [.GetSimpleDB req.NamespacedName none, .GetDeployment ⟨m.Namespace, m.Name⟩ none] s2 := by
  unfold Reconcile
  rw [hget]
  simp only []
  rw [hdep]
  simp [hrep]

end paths

/-! ## Facts about the condition list -/

theorem FindStatusCondition_of_mem (conds : List Condition) (e : Condition) (t : String)
    (huniq : (conds.map (fun c => c.Type_)).Nodup) (hmem : e ∈ conds) (ht : e.Type_ = t) :
    FindStatusCondition conds t = some e := by
  induction conds with
  | nil => cases hmem
  | cons c cs ih =>
    simp only [List.map_cons, List.nodup_cons, List.mem_map, not_exists, not_and] at huniq
    rcases List.mem_cons.mp hmem with h | h
    · subst h
      simp [FindStatusCondition, ht]
    · have hne : c.Type_ ≠ t := fun hc => huniq.1 e h (by rw [ht, hc])
      have := ih huniq.2 h
      simp only [FindStatusCondition] at this ⊢
      rw [List.find?_cons_of_neg _ (by simpa using hne)]
      exact this

theorem FindStatusCondition_none (conds : List Condition) (t : String)
    (h : ∀ e ∈ conds, e.Type_ ≠ t) : FindStatusCondition conds t = none := by
  simp only [FindStatusCondition, List.find?_eq_none]
  intro e he
  simpa using h e he

theorem FindStatusCondition_type (conds : List Condition) (t : String) (e : Condition)
    (h : FindStatusCondition conds t = some e) : e.Type_ = t := by
  have := List.find?_some h
  simpa using this

theorem FindStatusCondition_append_new (conds : List Condition) (c : Condition)
    (h : FindStatusCondition conds c.Type_ = none) :
    FindStatusCondition (conds ++ [c]) c.Type_ = some c := by
  simp only [FindStatusCondition] at h ⊢
  rw [List.find?_append, h]
  simp

theorem length_updateFirst (p : Condition → Bool) (f : Condition → Condition)
    (conds : List Condition) : (updateFirst p f conds).length = conds.length := by
  induction conds with
  | nil => rfl
  | cons c cs ih =>
    unfold updateFirst
    split <;> simp [ih]

theorem FindStatusCondition_updateFirst (t : String) (f : Condition → Condition)
    (hf : ∀ c, (f c).Type_ = c.Type_) (conds : List Condition) (e : Condition)
    (h : FindStatusCondition conds t = some e) :
    FindStatusCondition (updateFirst (fun c => c.Type_ == t) f conds) t = some (f e) := by
  induction conds with
  | nil => simp [FindStatusCondition] at h
  | cons c cs ih =>
    unfold updateFirst
    by_cases hc : c.Type_ = t
    · simp only [FindStatusCondition, hc, beq_self_eq_true, List.find?_cons_of_pos,
        Option.some.injEq] at h
      subst h
      simp [FindStatusCondition, hc, hf]
    · have hb : (c.Type_ == t) = false := by simpa using hc
      simp only [FindStatusCondition, hb, Bool.false_eq_true, not_false_eq_true,
        List.find?_cons_of_neg] at h
      simp only [hb, Bool.false_eq_true, if_false, FindStatusCondition, not_false_eq_true,
        List.find?_cons_of_neg]
      exact ih h

theorem SetStatusCondition_absent (conds : List Condition) (c : Condition) (t : Time)
    (hz : c.LastTransitionTime.IsZero = false)
    (h : FindStatusCondition conds c.Type_ = none) :
    SetStatusCondition conds c t = conds ++ [c] := by
  simp [SetStatusCondition, h, hz]

theorem SetStatusCondition_present (conds : List Condition) (c e : Condition) (t : Time)
    (h : FindStatusCondition conds c.Type_ = some e) :
    SetStatusCondition conds c t =
      updateFirst (fun x => x.Type_ == c.Type_) (overwriteCondition c t) conds := by
  simp [SetStatusCondition, h]

theorem overwriteCondition_type (c e : Condition) (t : Time) :
    (overwriteCondition c t e).Type_ = e.Type_ := by
  unfold overwriteCondition
  by_cases h : e.Status = c.Status <;> simp [h]

theorem overwriteCondition_fields (c e : Condition) (t : Time) :
    (overwriteCondition c t e).Status = c.Status ∧
    (overwriteCondition c t e).Reason = c.Reason ∧
    (overwriteCondition c t e).Message = c.Message := by
  unfold overwriteCondition
  by_cases h : e.Status = c.Status <;> simp [h]

theorem overwriteCondition_time (c e : Condition) (t : Time)
    (hz : c.LastTransitionTime.IsZero = false) :
    (overwriteCondition c t e).LastTransitionTime =
      if e.Status ≠ c.Status then c.LastTransitionTime else e.LastTransitionTime := by
  unfold overwriteCondition
  by_cases h : e.Status = c.Status <;> simp [h, hz]

theorem readyCondition_type (b : Bool) (now : Nat) : (readyCondition b now).Type_ = "Ready" := by
  cases b <;> rfl

theorem readyCondition_time (b : Bool) (now : Nat) :
    (readyCondition b now).LastTransitionTime = .unix now := by
  cases b <;> rfl

/-! ## Equations of the status step -/

section status

variable {σ : Type} (r : SimpleDBReconciler σ) (now : Nat)

theorem reconcileStatus_skip (m : SimpleDB) (c e : Condition) (calls : List Call) (s : σ)
    (hfind : FindStatusCondition m.Status.Conditions "Ready" = some e)
    (hstatus : e.Status = c.Status) (hreason : e.Reason = c.Reason) :
    reconcileStatus r now m c calls s = ⟨.returned {} none, calls, s⟩ := by
  simp [reconcileStatus, hfind, hstatus, hreason]

theorem reconcileStatus_write (m : SimpleDB) (c : Condition) (calls : List Call) (s s' : σ)
    (res : Option Err)
    (hfind : ∀ e, FindStatusCondition m.Status.Conditions "Ready" = some e →
      e.Status ≠ c.Status ∨ e.Reason ≠ c.Reason)
    (hwrite : r.Client.StatusUpdate
      { m with Status := { m.Status with
          Conditions := SetStatusCondition m.Status.Conditions c (.unix now) } } s = (res, s')) :
    reconcileStatus r now m c calls s =
      ⟨.returned {} res,
        calls ++ [.StatusUpdate
          { m with Status := { m.Status with
              Conditions := SetStatusCondition m.Status.Conditions c (.unix now) } } res],
        s'⟩ := by
  unfold reconcileStatus
  have hun : (match FindStatusCondition m.Status.Conditions "Ready" with
      | none => false
      | some existing => existing.Status == c.Status && existing.Reason == c.Reason) = false := by
    cases hf : FindStatusCondition m.Status.Conditions "Ready" with
    | none => rfl
    | some e =>
      rcases hfind e hf with h | h
      · simp [h]
      · simp [h]
  simp only [hun, Bool.false_eq_true, if_false]
  rw [hwrite]
  cases res <;> rfl

end status

/-- The Deployment a successful `deploymentForSimpleDB` returns, field by field: only
the owner references come from the scheme. -/
theorem deploymentForSimpleDB_ok {σ : Type} (r : SimpleDBReconciler σ) (m : SimpleDB)
    (dep : Deployment) (hbuild : deploymentForSimpleDB r m = .ok dep) :
    ∃ refs : List OwnerReference,
      dep =
        { Name := m.Name
          Namespace := m.Namespace
          OwnerReferences := refs
          Spec :=
            { Replicas := some m.Spec.Replicas
              Selector := some (labelsForSimpleDB m.Name)
              Template :=
                { Labels := labelsForSimpleDB m.Name
                  Containers :=
                    [{ Name := "simpledb"
                       Image := m.Spec.Image
                       Ports := [{ Name := "db", ContainerPort := 5432 }]
                       Env := [{ Name := "POSTGRES_PASSWORD", Value := "changeme" }] }] } } } := by
  unfold deploymentForSimpleDB SetControllerReference at hbuild
  simp only [] at hbuild
  split at hbuild
  · cases hbuild
  · rename_i d heq
    split at heq
    · cases heq
    · rename_i refs _
      refine ⟨refs, ?_⟩
      cases heq
      cases hbuild
      rfl

/-! ## Every pass follows one of eight paths -/

/-- The shape of a pass. Every pass is one of: the object fetch failed; the Deployment fetch
failed otherwise than NotFound; the builder failed; the Deployment was created (or `Create`
failed); the fetched replica pointer was nil; the replica count was updated (or `Update`
failed); the status write was skipped; the status was written (or the write failed). -/
theorem Reconcile_paths {σ : Type} (r : SimpleDBReconciler σ) (now : Nat) (req : Request)
    (s : σ) :
    (∃ err s1, Reconcile r now req s =
        ⟨.returned {} (if err.IsNotFound then none else some err),
          [.GetSimpleDB req.NamespacedName (some err)], s1⟩) ∨
    (∃ key err s2, err.IsNotFound = false ∧ Reconcile r now req s =
        ⟨.returned {} (some err),
          [.GetSimpleDB req.NamespacedName none, .GetDeployment key (some err)], s2⟩) ∨
    (∃ key err e s2, err.IsNotFound = true ∧ Reconcile r now req s =
        ⟨.returned {} (some e),
          [.GetSimpleDB req.NamespacedName none, .GetDeployment key (some err)], s2⟩) ∨
    (∃ key err dep res s3, err.IsNotFound = true ∧ Reconcile r now req s =
        ⟨.returned { Requeue := res.isNone } res,
          [.GetSimpleDB req.NamespacedName none, .GetDeployment key (some err),
            .Create dep res], s3⟩) ∨
    (∃ key s2, Reconcile r now req s =
        ⟨.nilDereference,
          [.GetSimpleDB req.NamespacedName none, .GetDeployment key none], s2⟩) ∨
    (∃ key dep res s3, Reconcile r now req s =
        ⟨.returned { Requeue := res.isNone } res,
          [.GetSimpleDB req.NamespacedName none, .GetDeployment key none,
            .Update dep res], s3⟩) ∨
    (∃ key s2, Reconcile r now req s =
        ⟨.returned {} none,
          [.GetSimpleDB req.NamespacedName none, .GetDeployment key none], s2⟩) ∨
    (∃ key obj res s3, Reconcile r now req s =
        ⟨.returned {} res,
          [.GetSimpleDB req.NamespacedName none, .GetDeployment key none,
            .StatusUpdate obj res], s3⟩) := by
  rcases hget : r.Client.GetSimpleDB req.NamespacedName s with ⟨err | m, s1⟩
  · exact Or.inl ⟨err, s1, Reconcile_getSimpleDB_error r now req s s1 err hget⟩
  rcases hdep : r.Client.GetDeployment ⟨m.Namespace, m.Name⟩ s1 with ⟨err | found, s2⟩
  · cases hnf : err.IsNotFound with
    | false =>
      exact Or.inr (Or.inl ⟨_, err, s2, hnf,
        Reconcile_getDeployment_error r now req s s1 s2 m err hget hdep hnf⟩)
    | true =>
      cases hbuild : deploymentForSimpleDB r m with
      | error e =>
        exact Or.inr (Or.inr (Or.inl ⟨_, err, e, s2, hnf,
          Reconcile_build_error r now req s s1 s2 m err e hget hdep hnf hbuild⟩))
      | ok dep =>
        rcases hcreate : r.Client.Create dep s2 with ⟨res, s3⟩
        exact Or.inr (Or.inr (Or.inr (Or.inl ⟨_, err, dep, res, s3, hnf,
          Reconcile_create r now req s s1 s2 s3 m err dep res hget hdep hnf hbuild hcreate⟩)))
  · cases hrep : found.Spec.Replicas with
    | none =>
      exact Or.inr (Or.inr (Or.inr (Or.inr (Or.inl ⟨_, s2,
        Reconcile_nil_replicas r now req s s1 s2 m found hget hdep hrep⟩))))
    | some n =>
      by_cases hne : n = m.Spec.Replicas
      · subst hne
        rw [Reconcile_status r now req s s1 s2 m found hget hdep hrep]
        by_cases hsame : ∃ e, FindStatusCondition m.Status.Conditions "Ready" = some e ∧
            e.Status = (readyCondition (ready found m.Spec.Replicas) now).Status ∧
            e.Reason = (readyCondition (ready found m.Spec.Replicas) now).Reason
        · obtain ⟨e, hf, hs, hr⟩ := hsame
          exact Or.inr (Or.inr (Or.inr (Or.inr (Or.inr (Or.inr (Or.inl ⟨_, s2,
            reconcileStatus_skip r now m _ e _ s2 hf hs hr⟩))))))
        · have hfind : ∀ e, FindStatusCondition m.Status.Conditions "Ready" = some e →
              e.Status ≠ (readyCondition (ready found m.Spec.Replicas) now).Status ∨
                e.Reason ≠ (readyCondition (ready found m.Spec.Replicas) now).Reason := by
            intro e he
            by_contra hcon
            exact hsame ⟨e, he, by tauto, by tauto⟩
          exact Or.inr (Or.inr (Or.inr (Or.inr (Or.inr (Or.inr (Or.inr ⟨_, _, _, _,
            reconcileStatus_write r now m _ _ s2 _ _ hfind
              (Prod.mk.eta (p := r.Client.StatusUpdate _ s2)).symm⟩))))))
      · rcases hupdate : r.Client.Update
          { found with Spec := { found.Spec with Replicas := some m.Spec.Replicas } } s2
          with ⟨res, s3⟩
        exact Or.inr (Or.inr (Or.inr (Or.inr (Or.inr (Or.inl ⟨_, _, res, s3,
          Reconcile_update r now req s s1 s2 s3 m found n res hget hdep hrep hne hupdate⟩)))))

/-! ## Creating a missing Deployment -/

/-- C1: when the SimpleDB object exists, the Deployment of its name and namespace is
reported NotFound, the builder yields `dep` and `Create` succeeds, the pass issues the two
reads and then exactly one write, the `Create` of `dep` (replicas and image copied from the
object's spec, same name and namespace), and returns Requeue=true with no error; this for
every value of `Spec.Replicas` and every stored condition list. -/
theorem Reconcile_creates_missing_deployment {σ : Type} (r : SimpleDBReconciler σ) (now : Nat)
    (req : Request) (s s1 s2 s3 : σ) (m : SimpleDB) (err : Err) (dep : Deployment)
    (hget : r.Client.GetSimpleDB req.NamespacedName s = (.ok m, s1))
    (hdep : r.Client.GetDeployment ⟨m.Namespace, m.Name⟩ s1 = (.error err, s2))
    (hnf : err.IsNotFound = true)
    (hbuild : deploymentForSimpleDB r m = .ok dep)
    (hcreate : r.Client.Create dep s2 = (none, s3)) :
    (Reconcile r now req s).outcome = .returned { Requeue := true } none ∧
    (Reconcile r now req s).calls =
      [.GetSimpleDB req.NamespacedName none, .GetDeployment ⟨m.Namespace, m.Name⟩ (some err),
        .Create dep none] ∧
    (Reconcile r now req s).calls.filter Call.isWrite = [.Create dep none] ∧
    (Reconcile r now req s).state = s3 ∧
    dep.Name = m.Name ∧ dep.Namespace = m.Namespace ∧
    dep.Spec.Replicas = some m.Spec.Replicas ∧
    dep.Spec.Template.Containers.map (fun c => c.Image) = [m.Spec.Image] := by
  rw [Reconcile_create r now req s s1 s2 s3 m err dep none hget hdep hnf hbuild hcreate]
  obtain ⟨refs, hdepEq⟩ := deploymentForSimpleDB_ok r m dep hbuild
  subst hdepEq
  simp [Call.isWrite]

/-- Witness for C1: Scenario A, the sample object (3 replicas of postgres:14) with no
Deployment stored. -/
theorem Reconcile_creates_missing_deployment_witness :
    (Reconcile sampleReconciler 100 sampleReq ⟨some sampleDB, none⟩).outcome =
      .returned { Requeue := true } none ∧
    (Reconcile sampleReconciler 100 sampleReq ⟨some sampleDB, none⟩).calls.filter Call.isWrite =
      [.Create
        { Name := "orders-db", Namespace := "default",
          OwnerReferences :=
            [{ APIVersion := "database.my.domain/v1", Kind := "SimpleDB", Name := "orders-db",
               UID := "", Controller := some true, BlockOwnerDeletion := some true }],
          Spec :=
            { Replicas := some 3, Selector := some (labelsForSimpleDB "orders-db"),
              Template :=
                { Labels := labelsForSimpleDB "orders-db",
                  Containers :=
                    [{ Name := "simpledb", Image := "postgres:14",
                       Ports := [{ Name := "db", ContainerPort := 5432 }],
                       Env := [{ Name := "POSTGRES_PASSWORD", Value := "changeme" }] }] } } }
        none] :=
  have h := Reconcile_creates_missing_deployment sampleReconciler 100 sampleReq
    ⟨some sampleDB, none⟩ ⟨some sampleDB, none⟩ ⟨some sampleDB, none⟩
    ⟨some sampleDB, some (reflectReplicas _)⟩ sampleDB errNotFound _
    (by simp [sampleReconciler, faithfulClient, sampleDB, sampleReq])
    (by simp [sampleReconciler, faithfulClient])
    rfl rfl rfl
  ⟨h.1, h.2.2.1⟩

/-! ## Correcting the replica count -/

/-- C2: when the SimpleDB object and its Deployment exist and the Deployment's requested
replica count `n` differs from the object's `Spec.Replicas`, a pass whose `Update` succeeds
issues the two reads and then exactly one write, the `Update` of the fetched Deployment with
`Spec.Replicas` set to the object's and every other field as fetched; it issues no status
write and returns Requeue=true with no error. -/
theorem Reconcile_updates_replica_mismatch {σ : Type} (r : SimpleDBReconciler σ) (now : Nat)
    (req : Request) (s s1 s2 s3 : σ) (m : SimpleDB) (found : Deployment) (n : Int)
    (hget : r.Client.GetSimpleDB req.NamespacedName s = (.ok m, s1))
    (hdep : r.Client.GetDeployment ⟨m.Namespace, m.Name⟩ s1 = (.ok found, s2))
    (hrep : found.Spec.Replicas = some n) (hne : n ≠ m.Spec.Replicas)
    (hupdate : r.Client.Update
      { found with Spec := { found.Spec with Replicas := some m.Spec.Replicas } } s2 =
        (none, s3)) :
    (Reconcile r now req s).outcome = .returned { Requeue := true } none ∧
    (∃ dep : Deployment,
      (Reconcile r now req s).calls =
        [.GetSimpleDB req.NamespacedName none, .GetDeployment ⟨m.Namespace, m.Name⟩ none,
          .Update dep none] ∧
      (Reconcile r now req s).calls.filter Call.isWrite = [.Update dep none] ∧
      dep.Spec.Replicas = some m.Spec.Replicas ∧
      dep.Name = found.Name ∧ dep.Namespace = found.Namespace ∧
      dep.OwnerReferences = found.OwnerReferences ∧
      dep.Spec.Selector = found.Spec.Selector ∧ dep.Spec.Template = found.Spec.Template ∧
      dep.Status = found.Status) ∧
    (Reconcile r now req s).state = s3 := by
  rw [Reconcile_update r now req s s1 s2 s3 m found n none hget hdep hrep hne hupdate]
  refine ⟨by simp, ⟨_, rfl, ?_, rfl, rfl, rfl, rfl, rfl, rfl, rfl⟩, rfl⟩
  simp [Call.isWrite]

/-- Witness for C2: Scenario B, a Deployment with 1 replica requested while the object
asks for 3. -/
theorem Reconcile_updates_replica_mismatch_witness :
    (Reconcile
        { Client := fixedClient (.ok sampleDB) (.ok (sampleDeployment (some 1) 1 1 1))
            none none none,
          Scheme := registeredScheme }
        100 sampleReq ()).outcome = .returned { Requeue := true } none :=
  (Reconcile_updates_replica_mismatch
    { Client := fixedClient (.ok sampleDB) (.ok (sampleDeployment (some 1) 1 1 1))
        none none none,
      Scheme := registeredScheme }
    100 sampleReq () () () () sampleDB (sampleDeployment (some 1) 1 1 1) 1
    rfl rfl rfl (by decide) rfl).1

/-! ## Readiness -/

/-- C3: on a pass where the Deployment exists and requests the object's replica count, the
pass continues into the status step with the computed Ready condition, and that condition
is (Ready, True, "Available", "Database is ready") if and only if the updated, ready and
available counters all equal the desired count; in every other case it is
(Ready, False, "Creating", "Database is being created"). -/
theorem Reconcile_ready_condition {σ : Type} (r : SimpleDBReconciler σ) (now : Nat)
    (req : Request) (s s1 s2 : σ) (m : SimpleDB) (found : Deployment)
    (hget : r.Client.GetSimpleDB req.NamespacedName s = (.ok m, s1))
    (hdep : r.Client.GetDeployment ⟨m.Namespace, m.Name⟩ s1 = (.ok found, s2))
    (hrep : found.Spec.Replicas = some m.Spec.Replicas) :
    Reconcile r now req s =
      reconcileStatus r now m (readyCondition (ready found m.Spec.Replicas) now)
        [.GetSimpleDB req.NamespacedName none, .GetDeployment ⟨m.Namespace, m.Name⟩ none] s2 ∧
    (readyCondition (ready found m.Spec.Replicas) now =
        { Type_ := "Ready", Status := ConditionTrue, Reason := "Available",
          Message := "Database is ready", LastTransitionTime := .unix now } ↔
      (found.Status.UpdatedReplicas = m.Spec.Replicas ∧
        found.Status.ReadyReplicas = m.Spec.Replicas ∧
        found.Status.AvailableReplicas = m.Spec.Replicas)) ∧
    (¬ (found.Status.UpdatedReplicas = m.Spec.Replicas ∧
        found.Status.ReadyReplicas = m.Spec.Replicas ∧
        found.Status.AvailableReplicas = m.Spec.Replicas) →
      readyCondition (ready found m.Spec.Replicas) now =
        { Type_ := "Ready", Status := ConditionFalse, Reason := "Creating",
          Message := "Database is being created", LastTransitionTime := .unix now }) := by
  refine ⟨Reconcile_status r now req s s1 s2 m found hget hdep hrep, ?_, ?_⟩
  · by_cases h : found.Status.UpdatedReplicas = m.Spec.Replicas ∧
        found.Status.ReadyReplicas = m.Spec.Replicas ∧
        found.Status.AvailableReplicas = m.Spec.Replicas
    · simp [readyCondition, ready, h]
    · have hr : ready found m.Spec.Replicas = false := by
        simp only [ready, Bool.and_eq_false_iff, beq_eq_false_iff_ne, Bool.and_eq_true,
          beq_iff_eq]
        tauto
      simp [readyCondition, hr, h, ConditionTrue, ConditionFalse]
  · intro h
    have hr : ready found m.Spec.Replicas = false := by
      simp only [ready, Bool.and_eq_false_iff, beq_eq_false_iff_ne, Bool.and_eq_true,
        beq_iff_eq]
      tauto
    simp [readyCondition, hr]

/-- Witness for C3: the sample object with a Deployment of 3 requested replicas of which
only 2 are ready. -/
theorem Reconcile_ready_condition_witness :
    readyCondition (ready (sampleDeployment (some 3) 3 2 2) sampleDB.Spec.Replicas) 100 =
      { Type_ := "Ready", Status := ConditionFalse, Reason := "Creating",
        Message := "Database is being created", LastTransitionTime := .unix 100 } :=
  (Reconcile_ready_condition
    { Client := fixedClient (.ok sampleDB) (.ok (sampleDeployment (some 3) 3 2 2))
        none none none,
      Scheme := registeredScheme }
    100 sampleReq () () () sampleDB (sampleDeployment (some 3) 3 2 2) rfl rfl rfl).2.2
    (by decide)

/-! ## The status write and its suppression -/

/-- C4: on a pass where the replica counts match, if the stored conditions (one per type)
contain a Ready condition whose status and reason equal the computed ones, the pass issues
the two reads and no write at all, leaves the backend as the reads left it, and returns the
empty result with no error; the stored message and transition time are arbitrary. -/
theorem Reconcile_suppresses_unchanged_status {σ : Type} (r : SimpleDBReconciler σ) (now : Nat)
    (req : Request) (s s1 s2 : σ) (m : SimpleDB) (found : Deployment) (e : Condition)
    (hget : r.Client.GetSimpleDB req.NamespacedName s = (.ok m, s1))
    (hdep : r.Client.GetDeployment ⟨m.Namespace, m.Name⟩ s1 = (.ok found, s2))
    (hrep : found.Spec.Replicas = some m.Spec.Replicas)
    (huniq : (m.Status.Conditions.map (fun c => c.Type_)).Nodup)
    (hmem : e ∈ m.Status.Conditions) (htype : e.Type_ = "Ready")
    (hstatus : e.Status = (readyCondition (ready found m.Spec.Replicas) now).Status)
    (hreason : e.Reason = (readyCondition (ready found m.Spec.Replicas) now).Reason) :
    (Reconcile r now req s).outcome = .returned {} none ∧
    (Reconcile r now req s).calls =
      [.GetSimpleDB req.NamespacedName none, .GetDeployment ⟨m.Namespace, m.Name⟩ none] ∧
    (Reconcile r now req s).calls.filter Call.isWrite = [] ∧
    (Reconcile r now req s).conditionsAfter m.Status.Conditions = m.Status.Conditions ∧
    (Reconcile r now req s).state = s2 := by
  rw [Reconcile_status r now req s s1 s2 m found hget hdep hrep,
    reconcileStatus_skip r now m _ e _ s2
      (FindStatusCondition_of_mem _ e "Ready" huniq hmem htype) hstatus hreason]
  simp [Call.isWrite, Pass.conditionsAfter, Pass.writtenConditions]

/-- Witness for C4: Scenario D on the faithful backend, with a stored Ready condition whose
message differs from the computed one; the backend state is the same after the pass. -/
theorem Reconcile_suppresses_unchanged_status_witness :
    (Reconcile sampleReconciler 100 sampleReq
        ⟨some (sampleDBWith [progressing, availableReady]),
          some (sampleDeployment (some 3) 3 3 3)⟩).outcome = .returned {} none ∧
    (Reconcile sampleReconciler 100 sampleReq
        ⟨some (sampleDBWith [progressing, availableReady]),
          some (sampleDeployment (some 3) 3 3 3)⟩).state =
      ⟨some (sampleDBWith [progressing, availableReady]),
        some (sampleDeployment (some 3) 3 3 3)⟩ :=
  have h := Reconcile_suppresses_unchanged_status sampleReconciler 100 sampleReq
    ⟨some (sampleDBWith [progressing, availableReady]), some (sampleDeployment (some 3) 3 3 3)⟩
    ⟨some (sampleDBWith [progressing, availableReady]), some (sampleDeployment (some 3) 3 3 3)⟩
    ⟨some (sampleDBWith [progressing, availableReady]), some (sampleDeployment (some 3) 3 3 3)⟩
    (sampleDBWith [progressing, availableReady]) (sampleDeployment (some 3) 3 3 3)
    availableReady
    (by simp [sampleReconciler, faithfulClient, sampleDBWith, sampleDB, sampleReq])
    (by simp [sampleReconciler, faithfulClient, sampleDBWith, sampleDB, sampleDeployment])
    rfl (by decide) (by simp [sampleDBWith]) rfl (by decide) (by decide)
  ⟨h.1, h.2.2.2.2⟩

/-- C5: on a pass where the replica counts match and the stored conditions (one per type)
hold no Ready condition, or hold one whose status or reason differs from the computed
ones, with a succeeding status write the pass issues the two reads and then exactly one
write, the status write of the object; its condition list holds a Ready condition with the
computed status, reason and message, appended when the type was absent and overwritten in
place (same length) when it was present; the pass issues no Deployment write and returns
the empty result with no error. -/
theorem Reconcile_writes_changed_status {σ : Type} (r : SimpleDBReconciler σ) (now : Nat)
    (req : Request) (s s1 s2 s3 : σ) (m : SimpleDB) (found : Deployment)
    (hget : r.Client.GetSimpleDB req.NamespacedName s = (.ok m, s1))
    (hdep : r.Client.GetDeployment ⟨m.Namespace, m.Name⟩ s1 = (.ok found, s2))
    (hrep : found.Spec.Replicas = some m.Spec.Replicas)
    (huniq : (m.Status.Conditions.map (fun c => c.Type_)).Nodup)
    (hdiff : (∀ e ∈ m.Status.Conditions, e.Type_ ≠ "Ready") ∨
      (∃ e ∈ m.Status.Conditions, e.Type_ = "Ready" ∧
        (e.Status ≠ (readyCondition (ready found m.Spec.Replicas) now).Status ∨
          e.Reason ≠ (readyCondition (ready found m.Spec.Replicas) now).Reason)))
    (hwrite : r.Client.StatusUpdate
      { m with Status := { m.Status with
          Conditions := SetStatusCondition m.Status.Conditions
            (readyCondition (ready found m.Spec.Replicas) now) (.unix now) } } s2 = (none, s3)) :
    (Reconcile r now req s).outcome = .returned {} none ∧
    (∃ obj : SimpleDB,
      (Reconcile r now req s).calls =
        [.GetSimpleDB req.NamespacedName none, .GetDeployment ⟨m.Namespace, m.Name⟩ none,
          .StatusUpdate obj none] ∧
      (Reconcile r now req s).calls.filter Call.isWrite = [.StatusUpdate obj none] ∧
      obj.Name = m.Name ∧ obj.Namespace = m.Namespace ∧ obj.Spec = m.Spec ∧
      (∃ c, FindStatusCondition obj.Status.Conditions "Ready" = some c ∧
        c.Status = (readyCondition (ready found m.Spec.Replicas) now).Status ∧
        c.Reason = (readyCondition (ready found m.Spec.Replicas) now).Reason ∧
        c.Message = (readyCondition (ready found m.Spec.Replicas) now).Message) ∧
      ((∀ e ∈ m.Status.Conditions, e.Type_ ≠ "Ready") →
        obj.Status.Conditions =
          m.Status.Conditions ++ [readyCondition (ready found m.Spec.Replicas) now]) ∧
      ((∃ e ∈ m.Status.Conditions, e.Type_ = "Ready") →
        obj.Status.Conditions.length = m.Status.Conditions.length)) ∧
    (Reconcile r now req s).state = s3 := by
  have hfind : ∀ e, FindStatusCondition m.Status.Conditions "Ready" = some e →
      e.Status ≠ (readyCondition (ready found m.Spec.Replicas) now).Status ∨
        e.Reason ≠ (readyCondition (ready found m.Spec.Replicas) now).Reason := by
    intro e he
    rcases hdiff with h | ⟨e0, hmem, htype, h⟩
    · rw [FindStatusCondition_none _ _ h] at he
      cases he
    · rw [FindStatusCondition_of_mem _ e0 "Ready" huniq hmem htype] at he
      cases he
      exact h
  rw [Reconcile_status r now req s s1 s2 m found hget hdep hrep,
    reconcileStatus_write r now m _ _ s2 s3 none hfind hwrite]
  have hty := readyCondition_type (ready found m.Spec.Replicas) now
  have htm := readyCondition_time (ready found m.Spec.Replicas) now
  have hz : (readyCondition (ready found m.Spec.Replicas) now).LastTransitionTime.IsZero
      = false := by rw [htm]; rfl
  refine ⟨rfl, ⟨_, rfl, by simp [Call.isWrite], rfl, rfl, rfl, ?_, ?_, ?_⟩, rfl⟩
  · cases hf : FindStatusCondition m.Status.Conditions "Ready" with
    | none =>
      refine ⟨readyCondition (ready found m.Spec.Replicas) now, ?_, rfl, rfl, rfl⟩
      simp only []
      rw [SetStatusCondition_absent _ _ _ hz (by rw [hty]; exact hf)]
      have := FindStatusCondition_append_new m.Status.Conditions
        (readyCondition (ready found m.Spec.Replicas) now) (by rw [hty]; exact hf)
      rw [hty] at this
      exact this
    | some e =>
      refine ⟨overwriteCondition (readyCondition (ready found m.Spec.Replicas) now)
        (.unix now) e, ?_, overwriteCondition_fields _ _ _⟩
      simp only []
      rw [SetStatusCondition_present _ _ e _ (by rw [hty]; exact hf), hty]
      exact FindStatusCondition_updateFirst "Ready" _
        (fun c => overwriteCondition_type _ c _) _ e hf
  · intro habs
    simp only []
    exact SetStatusCondition_absent _ _ _ hz
      (by rw [hty]; exact FindStatusCondition_none _ _ habs)
  · rintro ⟨e, hmem, htype⟩
    simp only []
    rw [SetStatusCondition_present _ _ e _
      (by rw [hty]; exact FindStatusCondition_of_mem _ e "Ready" huniq hmem htype)]
    exact length_updateFirst _ _ _

/-- Witness for C5: Scenario C on the faithful backend, all three counters at the desired
3 and no Ready condition stored; the Ready condition is appended and stored. -/
theorem Reconcile_writes_changed_status_witness :
    (Reconcile sampleReconciler 100 sampleReq
        ⟨some (sampleDBWith [progressing]), some (sampleDeployment (some 3) 3 3 3)⟩).outcome =
      .returned {} none ∧
    (Reconcile sampleReconciler 100 sampleReq
        ⟨some (sampleDBWith [progressing]), some (sampleDeployment (some 3) 3 3 3)⟩).state =
      ⟨some (sampleDBWith
          [progressing,
            { Type_ := "Ready", Status := ConditionTrue, Reason := "Available",
              Message := "Database is ready", LastTransitionTime := .unix 100 }]),
        some (sampleDeployment (some 3) 3 3 3)⟩ :=
  have h := Reconcile_writes_changed_status sampleReconciler 100 sampleReq
    ⟨some (sampleDBWith [progressing]), some (sampleDeployment (some 3) 3 3 3)⟩
    ⟨some (sampleDBWith [progressing]), some (sampleDeployment (some 3) 3 3 3)⟩
    ⟨some (sampleDBWith [progressing]), some (sampleDeployment (some 3) 3 3 3)⟩
    ⟨some (sampleDBWith
        [progressing,
          { Type_ := "Ready", Status := ConditionTrue, Reason := "Available",
            Message := "Database is ready", LastTransitionTime := .unix 100 }]),
      some (sampleDeployment (some 3) 3 3 3)⟩
    (sampleDBWith [progressing]) (sampleDeployment (some 3) 3 3 3)
    (by simp [sampleReconciler, faithfulClient, sampleDBWith, sampleDB, sampleReq])
    (by simp [sampleReconciler, faithfulClient, sampleDBWith, sampleDB, sampleDeployment])
    rfl (by decide) (Or.inl (by decide)) (by decide)
  ⟨h.1, h.2.2⟩

/-! ## The transition time of the Ready condition -/

/-- C6, as amended: on a pass that reaches the status step with a stored Ready condition
`e` (conditions one per type), the Ready condition the object holds when the pass ends has
its `lastTransitionTime` set to the pass's current time if the computed status differs from
the stored status, and keeps the stored `lastTransitionTime` otherwise, whatever the stored
reason and message are. -/
theorem Reconcile_transition_time {σ : Type} (r : SimpleDBReconciler σ) (now : Nat)
    (req : Request) (s s1 s2 : σ) (m : SimpleDB) (found : Deployment) (e : Condition)
    (hget : r.Client.GetSimpleDB req.NamespacedName s = (.ok m, s1))
    (hdep : r.Client.GetDeployment ⟨m.Namespace, m.Name⟩ s1 = (.ok found, s2))
    (hrep : found.Spec.Replicas = some m.Spec.Replicas)
    (huniq : (m.Status.Conditions.map (fun c => c.Type_)).Nodup)
    (hmem : e ∈ m.Status.Conditions) (htype : e.Type_ = "Ready") :
    ∃ c, FindStatusCondition ((Reconcile r now req s).conditionsAfter m.Status.Conditions)
        "Ready" = some c ∧
      c.LastTransitionTime =
        if e.Status ≠ (readyCondition (ready found m.Spec.Replicas) now).Status then .unix now
        else e.LastTransitionTime := by
  have hf := FindStatusCondition_of_mem _ e "Ready" huniq hmem htype
  have hty := readyCondition_type (ready found m.Spec.Replicas) now
  have htm := readyCondition_time (ready found m.Spec.Replicas) now
  have hz : (readyCondition (ready found m.Spec.Replicas) now).LastTransitionTime.IsZero
      = false := by rw [htm]; rfl
  rw [Reconcile_status r now req s s1 s2 m found hget hdep hrep]
  by_cases hsame : e.Status = (readyCondition (ready found m.Spec.Replicas) now).Status ∧
      e.Reason = (readyCondition (ready found m.Spec.Replicas) now).Reason
  · rw [reconcileStatus_skip r now m _ e _ s2 hf hsame.1 hsame.2]
    refine ⟨e, ?_, by simp [hsame.1]⟩
    simpa [Pass.conditionsAfter, Pass.writtenConditions] using hf
  · have hfind : ∀ e', FindStatusCondition m.Status.Conditions "Ready" = some e' →
        e'.Status ≠ (readyCondition (ready found m.Spec.Replicas) now).Status ∨
          e'.Reason ≠ (readyCondition (ready found m.Spec.Replicas) now).Reason := by
      intro e' he'
      rw [hf] at he'
      cases he'
      tauto
    rw [reconcileStatus_write r now m _ _ s2 _ _ hfind
      (Prod.mk.eta (p := r.Client.StatusUpdate _ s2)).symm]
    refine ⟨overwriteCondition (readyCondition (ready found m.Spec.Replicas) now)
      (.unix now) e, ?_, ?_⟩
    · simp only [Pass.conditionsAfter, Pass.writtenConditions, List.cons_append,
        List.nil_append, List.findSome?_cons, List.findSome?_nil]
      rw [SetStatusCondition_present _ _ e _ (by rw [hty]; exact hf), hty]
      exact FindStatusCondition_updateFirst "Ready" _
        (fun c => overwriteCondition_type _ c _) _ e hf
    · rw [overwriteCondition_time _ _ _ hz, htm]

/-- Witness for C6 as amended: a stored Ready condition of status False, stamped 3, meets
a ready Deployment at time 100; the written Ready condition is stamped 100. -/
theorem Reconcile_transition_time_witness :
    ∃ c, FindStatusCondition
        ((Reconcile
            (fixedReconciler (.ok (sampleDBWith [{ progressing with Type_ := "Ready" }]))
              (.ok (sampleDeployment (some 3) 3 3 3)) none none none)
            100 sampleReq ()).conditionsAfter [{ progressing with Type_ := "Ready" }])
        "Ready" = some c ∧
      c.LastTransitionTime = .unix 100 :=
  Reconcile_transition_time
    (fixedReconciler (.ok (sampleDBWith [{ progressing with Type_ := "Ready" }]))
      (.ok (sampleDeployment (some 3) 3 3 3)) none none none)
    100 sampleReq () () () (sampleDBWith [{ progressing with Type_ := "Ready" }])
    (sampleDeployment (some 3) 3 3 3) { progressing with Type_ := "Ready" }
    rfl rfl rfl (by decide) (by simp [sampleDBWith]) rfl

/-- C6, as stated, fails: the stored Ready condition has the computed status True and
another reason; the pass issues a status write that overwrites reason and message, and the
written Ready condition keeps the stored `lastTransitionTime` 5 although the pass runs at
time 100. -/
theorem reason_only_change_keeps_transition_time :
    restoredReady.Status = (readyCondition (ready (sampleDeployment (some 3) 3 3 3) 3) 100).Status ∧
    restoredReady.Reason ≠ (readyCondition (ready (sampleDeployment (some 3) 3 3 3) 3) 100).Reason ∧
    (Reconcile
        (fixedReconciler (.ok (sampleDBWith [restoredReady]))
          (.ok (sampleDeployment (some 3) 3 3 3)) none none none)
        100 sampleReq ()).calls.filter Call.isWrite =
      [.StatusUpdate
        (sampleDBWith
          [{ Type_ := "Ready", Status := ConditionTrue, Reason := "Available",
             Message := "Database is ready", LastTransitionTime := .unix 5 }])
        none] ∧
    ((Reconcile
        (fixedReconciler (.ok (sampleDBWith [restoredReady]))
          (.ok (sampleDeployment (some 3) 3 3 3)) none none none)
        100 sampleReq ()).conditionsAfter [restoredReady]).map
        (fun c => (c.Type_, c.LastTransitionTime)) = [("Ready", .unix 5)] ∧
    restoredReady.LastTransitionTime = .unix 5 ∧ Time.unix 5 ≠ Time.unix 100 := by
  decide

/-! ## Convergence -/

/-- C7: for every SimpleDB object `m` (any `Spec.Replicas`) with no stored conditions, on
the faithful backend holding `m` and no Deployment, and with an owner registration that
succeeds, the first pass creates the Deployment and asks for a requeue, and the second
pass returns the empty result and leaves the stored object with a Ready condition of
status True and reason "Available". -/
theorem Reconcile_converges_in_two_passes (scheme : Scheme) (m : SimpleDB) (req : Request)
    (now1 now2 : Nat) (dep : Deployment)
    (hreq : req.NamespacedName = ⟨m.Namespace, m.Name⟩)
    (hcond : m.Status.Conditions = [])
    (hbuild : deploymentForSimpleDB
      ({ Client := faithfulClient, Scheme := scheme } : SimpleDBReconciler Cluster) m = .ok dep) :
    (Reconcile { Client := faithfulClient, Scheme := scheme } now1 req ⟨some m, none⟩).outcome =
      .returned { Requeue := true } none ∧
    (Reconcile { Client := faithfulClient, Scheme := scheme } now1 req
      ⟨some m, none⟩).calls.filter Call.isWrite = [.Create dep none] ∧
    (Reconcile { Client := faithfulClient, Scheme := scheme } now2 req
      (Reconcile { Client := faithfulClient, Scheme := scheme } now1 req
        ⟨some m, none⟩).state).outcome = .returned {} none ∧
    ∃ m' c,
      (Reconcile { Client := faithfulClient, Scheme := scheme } now2 req
        (Reconcile { Client := faithfulClient, Scheme := scheme } now1 req
          ⟨some m, none⟩).state).state.simpledb = some m' ∧
      m'.Name = m.Name ∧ m'.Namespace = m.Namespace ∧ m'.Spec = m.Spec ∧
      FindStatusCondition m'.Status.Conditions "Ready" = some c ∧
      c.Status = ConditionTrue ∧ c.Reason = "Available" := by
  obtain ⟨refs, hdepEq⟩ := deploymentForSimpleDB_ok _ m dep hbuild
  have h1 := Reconcile_create { Client := faithfulClient, Scheme := scheme } now1 req
    ⟨some m, none⟩ ⟨some m, none⟩ ⟨some m, none⟩ ⟨some m, some (reflectReplicas dep)⟩
    m errNotFound dep none (by simp [faithfulClient, hreq]) (by simp [faithfulClient]) rfl
    hbuild rfl
  rw [h1]
  have hfound : (reflectReplicas dep).Spec.Replicas = some m.Spec.Replicas := by
    rw [hdepEq]; rfl
  have hready : ready (reflectReplicas dep) m.Spec.Replicas = true := by
    rw [hdepEq]; simp [reflectReplicas, ready]
  have h2 := Reconcile_status { Client := faithfulClient, Scheme := scheme } now2 req
    ⟨some m, some (reflectReplicas dep)⟩ ⟨some m, some (reflectReplicas dep)⟩
    ⟨some m, some (reflectReplicas dep)⟩ m (reflectReplicas dep)
    (by simp [faithfulClient, hreq])
    (by rw [hdepEq]; simp [faithfulClient, reflectReplicas]) hfound
  simp only []
  rw [h2, hready]
  have h3 := reconcileStatus_write { Client := faithfulClient, Scheme := scheme } now2 m
    (readyCondition true now2)
    [.GetSimpleDB req.NamespacedName none, .GetDeployment ⟨m.Namespace, m.Name⟩ none]
    ⟨some m, some (reflectReplicas dep)⟩ _ none
    (by intro e he; rw [hcond] at he; cases he) rfl
  rw [h3]
  refine ⟨rfl, by simp [Call.isWrite], rfl, _, readyCondition true now2, rfl, rfl, rfl, rfl,
    ?_, rfl, rfl⟩
  simp [hcond, SetStatusCondition, FindStatusCondition, readyCondition, Time.IsZero]

/-- Witness for C7: the sample object (3 replicas) on the faithful backend. -/
theorem Reconcile_converges_in_two_passes_witness :
    (Reconcile sampleReconciler 200 sampleReq
      (Reconcile sampleReconciler 100 sampleReq ⟨some sampleDB, none⟩).state).outcome =
        .returned {} none :=
  (Reconcile_converges_in_two_passes registeredScheme sampleDB sampleReq 100 200 _
    rfl rfl rfl).2.2.1

/-! ## Failures and the number of writes -/

/-- C9: when fetching the SimpleDB object reports NotFound, the pass returns the empty
result with a nil error, and the fetch is the only backend call it issues: no Deployment
fetch, no `Create`, no `Update`, no status write. -/
theorem Reconcile_object_not_found {σ : Type} (r : SimpleDBReconciler σ) (now : Nat)
    (req : Request) (s s1 : σ) (err : Err)
    (hget : r.Client.GetSimpleDB req.NamespacedName s = (.error err, s1))
    (hnf : err.IsNotFound = true) :
    (Reconcile r now req s).outcome = .returned {} none ∧
    (Reconcile r now req s).calls = [.GetSimpleDB req.NamespacedName (some err)] ∧
    (Reconcile r now req s).state = s1 := by
  rw [Reconcile_getSimpleDB_error r now req s s1 err hget]
  simp [hnf]

/-- Witness for C9: the faithful backend holding no object. -/
theorem Reconcile_object_not_found_witness :
    (Reconcile sampleReconciler 100 sampleReq ⟨none, none⟩).outcome = .returned {} none ∧
    (Reconcile sampleReconciler 100 sampleReq ⟨none, none⟩).calls =
      [.GetSimpleDB sampleReq.NamespacedName (some errNotFound)] ∧
    (Reconcile sampleReconciler 100 sampleReq ⟨none, none⟩).state = ⟨none, none⟩ :=
  Reconcile_object_not_found sampleReconciler 100 sampleReq ⟨none, none⟩ ⟨none, none⟩
    errNotFound rfl rfl

/-- C8: whenever a backend call of a pass answers an error `e` (for a fetch: an error other
than NotFound), the pass returns the empty result together with exactly `e`, and that call
is the last backend call of the pass: nothing is attempted after it. -/
theorem Reconcile_propagates_backend_error {σ : Type} (r : SimpleDBReconciler σ) (now : Nat)
    (req : Request) (s : σ) (c : Call) (e : Err)
    (hc : c ∈ (Reconcile r now req s).calls) (he : c.err = some e)
    (hnf : c.isGet = true → e.IsNotFound = false) :
    (Reconcile r now req s).outcome = .returned {} (some e) ∧
    (Reconcile r now req s).calls.getLast? = some c := by
  rcases Reconcile_paths r now req s with ⟨err, s1, h⟩ | ⟨key, err, s2, hn, h⟩ |
    ⟨key, err, e', s2, hn, h⟩ | ⟨key, err, dep, res, s3, hn, h⟩ | ⟨key, s2, h⟩ |
    ⟨key, dep, res, s3, h⟩ | ⟨key, s2, h⟩ | ⟨key, obj, res, s3, h⟩
  all_goals rw [h] at hc ⊢
  all_goals simp only [List.mem_cons, List.mem_singleton, List.not_mem_nil, or_false] at hc
  · subst hc
    simp only [Call.err, Option.some.injEq] at he
    subst he
    simp [Call.isGet] at hnf
    simp [hnf]
  · rcases hc with hc | hc <;> subst hc <;> simp only [Call.err, Option.some.injEq] at he
    · cases he
    · subst he
      simp
  · rcases hc with hc | hc <;> subst hc <;> simp only [Call.err, Option.some.injEq] at he
    · cases he
    · subst he
      simp [Call.isGet, hn] at hnf
  · rcases hc with hc | hc | hc <;> subst hc <;> simp only [Call.err, Option.some.injEq] at he
    · cases he
    · subst he
      simp [Call.isGet, hn] at hnf
    · subst he
      simp
  · rcases hc with hc | hc <;> subst hc <;> simp [Call.err] at he
  · rcases hc with hc | hc | hc <;> subst hc <;> simp only [Call.err, Option.some.injEq] at he
    · cases he
    · cases he
    · subst he
      simp
  · rcases hc with hc | hc <;> subst hc <;> simp [Call.err] at he
  · rcases hc with hc | hc | hc <;> subst hc <;> simp only [Call.err, Option.some.injEq] at he
    · cases he
    · cases he
    · subst he
      simp

/-- Witness for C8: the `Update` of a Deployment with 1 replica requested is refused; the
pass returns the refusal and nothing follows the `Update`. -/
theorem Reconcile_propagates_backend_error_witness :
    (Reconcile
        (fixedReconciler (.ok sampleDB) (.ok (sampleDeployment (some 1) 1 1 1))
          none (some errConflict) none)
        100 sampleReq ()).outcome = .returned {} (some errConflict) ∧
    (Reconcile
        (fixedReconciler (.ok sampleDB) (.ok (sampleDeployment (some 1) 1 1 1))
          none (some errConflict) none)
        100 sampleReq ()).calls.getLast? =
      some (.Update (sampleDeployment (some 3) 1 1 1) (some errConflict)) :=
  Reconcile_propagates_backend_error
    (fixedReconciler (.ok sampleDB) (.ok (sampleDeployment (some 1) 1 1 1))
      none (some errConflict) none)
    100 sampleReq () (.Update (sampleDeployment (some 3) 1 1 1) (some errConflict)) errConflict
    (by decide) rfl (by decide)

/-- C10: for every backend, every backend state and every answer of its operations, a
pass issues at most one write among `Create`, `Update` and the status write. -/
theorem Reconcile_at_most_one_write {σ : Type} (r : SimpleDBReconciler σ) (now : Nat)
    (req : Request) (s : σ) :
    ((Reconcile r now req s).calls.filter Call.isWrite).length ≤ 1 := by
  rcases Reconcile_paths r now req s with ⟨err, s1, h⟩ | ⟨key, err, s2, hn, h⟩ |
    ⟨key, err, e', s2, hn, h⟩ | ⟨key, err, dep, res, s3, hn, h⟩ | ⟨key, s2, h⟩ |
    ⟨key, dep, res, s3, h⟩ | ⟨key, s2, h⟩ | ⟨key, obj, res, s3, h⟩
  all_goals rw [h]
  all_goals simp [Call.isWrite]

/-! ## What a status write carries -/

/-- A status write found among the calls of a pass pins the pass down: the Deployment was
fetched, requests the object's replica count, and the object written is the fetched one
with its conditions passed through `SetStatusCondition`. -/
theorem Reconcile_statusUpdate_inv {σ : Type} (r : SimpleDBReconciler σ) (now : Nat)
    (req : Request) (s s1 : σ) (m obj : SimpleDB) (res : Option Err)
    (hget : r.Client.GetSimpleDB req.NamespacedName s = (.ok m, s1))
    (hc : Call.StatusUpdate obj res ∈ (Reconcile r now req s).calls) :
    ∃ found s2 s3,
      r.Client.GetDeployment ⟨m.Namespace, m.Name⟩ s1 = (.ok found, s2) ∧
      found.Spec.Replicas = some m.Spec.Replicas ∧
      obj = { m with Status := { m.Status with
        Conditions := SetStatusCondition m.Status.Conditions
          (readyCondition (ready found m.Spec.Replicas) now) (.unix now) } } ∧
      r.Client.StatusUpdate obj s2 = (res, s3) ∧
      Reconcile r now req s =
        ⟨.returned {} res,
          [.GetSimpleDB req.NamespacedName none, .GetDeployment ⟨m.Namespace, m.Name⟩ none,
            .StatusUpdate obj res], s3⟩ := by
  rcases hdep : r.Client.GetDeployment ⟨m.Namespace, m.Name⟩ s1 with ⟨err | found, s2⟩
  · exfalso
    cases hnf : err.IsNotFound with
    | false =>
      rw [Reconcile_getDeployment_error r now req s s1 s2 m err hget hdep hnf] at hc
      simp at hc
    | true =>
      cases hbuild : deploymentForSimpleDB r m with
      | error e =>
        rw [Reconcile_build_error r now req s s1 s2 m err e hget hdep hnf hbuild] at hc
        simp at hc
      | ok dep =>
        rcases hcreate : r.Client.Create dep s2 with ⟨res', s3⟩
        rw [Reconcile_create r now req s s1 s2 s3 m err dep res' hget hdep hnf hbuild
          hcreate] at hc
        simp at hc
  · cases hrep : found.Spec.Replicas with
    | none =>
      exfalso
      rw [Reconcile_nil_replicas r now req s s1 s2 m found hget hdep hrep] at hc
      simp at hc
    | some n =>
      by_cases hne : n = m.Spec.Replicas
      · subst hne
        rw [Reconcile_status r now req s s1 s2 m found hget hdep hrep] at hc ⊢
        by_cases hsame : ∃ e, FindStatusCondition m.Status.Conditions "Ready" = some e ∧
            e.Status = (readyCondition (ready found m.Spec.Replicas) now).Status ∧
            e.Reason = (readyCondition (ready found m.Spec.Replicas) now).Reason
        · exfalso
          obtain ⟨e, hf, hs, hr⟩ := hsame
          rw [reconcileStatus_skip r now m _ e _ s2 hf hs hr] at hc
          simp at hc
        · have hfind : ∀ e, FindStatusCondition m.Status.Conditions "Ready" = some e →
              e.Status ≠ (readyCondition (ready found m.Spec.Replicas) now).Status ∨
                e.Reason ≠ (readyCondition (ready found m.Spec.Replicas) now).Reason := by
            intro e he
            by_contra hcon
            exact hsame ⟨e, he, by tauto, by tauto⟩
          have hw := reconcileStatus_write r now m _
            [.GetSimpleDB req.NamespacedName none, .GetDeployment ⟨m.Namespace, m.Name⟩ none]
            s2 _ _ hfind (Prod.mk.eta (p := r.Client.StatusUpdate _ s2)).symm
          rw [hw] at hc ⊢
          simp only [List.cons_append, List.nil_append, List.mem_cons, List.mem_singleton,
            List.not_mem_nil, or_false, reduceCtorEq, false_or, Call.StatusUpdate.injEq] at hc
          obtain ⟨hobj, hres⟩ := hc
          refine ⟨found, s2, (r.Client.StatusUpdate obj s2).2, rfl, hrep, hobj, ?_, ?_⟩
          · rw [hres, hobj]
          · rw [hres, hobj]
            rfl
      · exfalso
        rcases hupdate : r.Client.Update
          { found with Spec := { found.Spec with Replicas := some m.Spec.Replicas } } s2
          with ⟨res', s3⟩
        rw [Reconcile_update r now req s s1 s2 s3 m found n res' hget hdep hrep hne
          hupdate] at hc
        simp at hc

theorem map_type_updateFirst (p : Condition → Bool) (f : Condition → Condition)
    (hf : ∀ c, (f c).Type_ = c.Type_) (conds : List Condition) :
    (updateFirst p f conds).map (fun c => c.Type_) = conds.map (fun c => c.Type_) := by
  induction conds with
  | nil => rfl
  | cons c cs ih =>
    unfold updateFirst
    split <;> simp [ih, hf]

theorem filter_other_updateFirst (t : String) (f : Condition → Condition)
    (hf : ∀ c, (f c).Type_ = c.Type_) (conds : List Condition) :
    (updateFirst (fun c => c.Type_ == t) f conds).filter (fun c => c.Type_ != t) =
      conds.filter (fun c => c.Type_ != t) := by
  induction conds with
  | nil => rfl
  | cons c cs ih =>
    unfold updateFirst
    by_cases hc : c.Type_ = t
    · simp [hc, hf]
    · have hb : (c.Type_ == t) = false := by simpa using hc
      simp only [hb, Bool.false_eq_true, if_false]
      simp [List.filter_cons, hc, ih]

theorem FindStatusCondition_isSome_of_mem (conds : List Condition) (t : String) (e : Condition)
    (hmem : e ∈ conds) (ht : e.Type_ = t) : ∃ e', FindStatusCondition conds t = some e' := by
  cases hf : FindStatusCondition conds t with
  | some e' => exact ⟨e', rfl⟩
  | none =>
    exfalso
    simp only [FindStatusCondition, List.find?_eq_none] at hf
    exact hf e hmem (by simpa using ht)

/-- The two ways the status step ends: the write is skipped, or the object is written with
its conditions passed through `SetStatusCondition`. -/
theorem reconcileStatus_paths {σ : Type} (r : SimpleDBReconciler σ) (now : Nat) (m : SimpleDB)
    (c : Condition) (calls : List Call) (s : σ) :
    reconcileStatus r now m c calls s = ⟨.returned {} none, calls, s⟩ ∨
    ∃ res s',
      reconcileStatus r now m c calls s =
        ⟨.returned {} res,
          calls ++ [.StatusUpdate
            { m with Status := { m.Status with
                Conditions := SetStatusCondition m.Status.Conditions c (.unix now) } } res],
          s'⟩ := by
  by_cases hsame : ∃ e, FindStatusCondition m.Status.Conditions "Ready" = some e ∧
      e.Status = c.Status ∧ e.Reason = c.Reason
  · obtain ⟨e, hf, hs, hr⟩ := hsame
    exact Or.inl (reconcileStatus_skip r now m c e calls s hf hs hr)
  · have hfind : ∀ e, FindStatusCondition m.Status.Conditions "Ready" = some e →
        e.Status ≠ c.Status ∨ e.Reason ≠ c.Reason := by
      intro e he
      by_contra hcon
      exact hsame ⟨e, he, by tauto, by tauto⟩
    exact Or.inr ⟨_, _, reconcileStatus_write r now m c calls s _ _ hfind
      (Prod.mk.eta (p := r.Client.StatusUpdate _ s)).symm⟩

/-! ## Drift other than the replica count -/

/-- C11: for every existing Deployment that requests the object's replica count, whatever
its image, ports, environment, labels and owner are, the pass issues neither a `Create`
nor an `Update`. -/
theorem Reconcile_ignores_other_drift {σ : Type} (r : SimpleDBReconciler σ) (now : Nat)
    (req : Request) (s s1 s2 : σ) (m : SimpleDB) (found : Deployment)
    (hget : r.Client.GetSimpleDB req.NamespacedName s = (.ok m, s1))
    (hdep : r.Client.GetDeployment ⟨m.Namespace, m.Name⟩ s1 = (.ok found, s2))
    (hrep : found.Spec.Replicas = some m.Spec.Replicas) :
    (Reconcile r now req s).calls.filter Call.isDeploymentWrite = [] ∧
    ∀ dep res, Call.Create dep res ∉ (Reconcile r now req s).calls ∧
      Call.Update dep res ∉ (Reconcile r now req s).calls := by
  rw [Reconcile_status r now req s s1 s2 m found hget hdep hrep]
  rcases reconcileStatus_paths r now m (readyCondition (ready found m.Spec.Replicas) now)
    [.GetSimpleDB req.NamespacedName none, .GetDeployment ⟨m.Namespace, m.Name⟩ none] s2
    with h | ⟨res, s3, h⟩
  all_goals rw [h]
  all_goals simp [Call.isDeploymentWrite]

/-- Witness for C11: a Deployment with 3 requested replicas and another image, port,
environment and label set is left alone; the pass only writes the status. -/
theorem Reconcile_ignores_other_drift_witness :
    (Reconcile (fixedReconciler (.ok sampleDB) (.ok driftedDeployment) none none none)
      100 sampleReq ()).calls.filter Call.isDeploymentWrite = [] ∧
    driftedDeployment.Spec.Template.Containers.map (fun c => c.Image) ≠ [sampleDB.Spec.Image] ∧
    driftedDeployment.Spec.Template.Labels ≠ labelsForSimpleDB sampleDB.Name :=
  ⟨(Reconcile_ignores_other_drift
      (fixedReconciler (.ok sampleDB) (.ok driftedDeployment) none none none)
      100 sampleReq () () () sampleDB driftedDeployment rfl rfl rfl).1,
    by decide, by decide⟩

/-! ## The desired Deployment -/

/-- C12: when owner registration succeeds, `deploymentForSimpleDB` returns a Deployment
with the object's name and namespace, `Spec.Replicas` and the image of its single
container copied from the object's spec; the result is a function of the object alone:
equal objects give equal Deployments, and neither the client nor the backend state enters
it. -/
theorem deploymentForSimpleDB_copies_spec {σ : Type} (r : SimpleDBReconciler σ) (m : SimpleDB)
    (dep : Deployment) (hbuild : deploymentForSimpleDB r m = .ok dep) :
    dep.Name = m.Name ∧ dep.Namespace = m.Namespace ∧
    dep.Spec.Replicas = some m.Spec.Replicas ∧
    (∃ c, dep.Spec.Template.Containers = [c] ∧ c.Image = m.Spec.Image) ∧
    (∀ m' : SimpleDB, m' = m → deploymentForSimpleDB r m' = .ok dep) ∧
    (∀ (τ : Type) (r' : SimpleDBReconciler τ), r'.Scheme = r.Scheme →
      deploymentForSimpleDB r' m = .ok dep) := by
  obtain ⟨refs, hdepEq⟩ := deploymentForSimpleDB_ok r m dep hbuild
  refine ⟨by rw [hdepEq], by rw [hdepEq], by rw [hdepEq], ⟨_, by rw [hdepEq], rfl⟩, ?_, ?_⟩
  · intro m' hm
    rw [hm]
    exact hbuild
  · intro τ r' hs
    rw [← hbuild]
    simp only [deploymentForSimpleDB, hs]

/-- Witness for C12: the Deployment built for the sample object. -/
theorem deploymentForSimpleDB_copies_spec_witness :
    deploymentForSimpleDB sampleReconciler sampleDB =
      .ok
        { Name := "orders-db", Namespace := "default",
          OwnerReferences :=
            [{ APIVersion := "database.my.domain/v1", Kind := "SimpleDB", Name := "orders-db",
               UID := "", Controller := some true, BlockOwnerDeletion := some true }],
          Spec :=
            { Replicas := some 3, Selector := some (labelsForSimpleDB "orders-db"),
              Template :=
                { Labels := labelsForSimpleDB "orders-db",
                  Containers :=
                    [{ Name := "simpledb", Image := "postgres:14",
                       Ports := [{ Name := "db", ContainerPort := 5432 }],
                       Env := [{ Name := "POSTGRES_PASSWORD", Value := "changeme" }] }] } } } :=
  (deploymentForSimpleDB_copies_spec sampleReconciler sampleDB _ rfl).2.2.2.2.1 sampleDB rfl

/-- C13, as amended: for every object, the labels the builder attaches as the selector's
match-labels and as the pod template's labels are both `labelsForSimpleDB` of the
object's name, which is exactly the map with "app" bound to "simpledb" and "simpledb_cr"
bound to the name, and no other key. -/
theorem deploymentForSimpleDB_labels {σ : Type} (r : SimpleDBReconciler σ) (m : SimpleDB)
    (dep : Deployment) (hbuild : deploymentForSimpleDB r m = .ok dep) :
    dep.Spec.Selector = some (labelsForSimpleDB m.Name) ∧
    dep.Spec.Template.Labels = labelsForSimpleDB m.Name ∧
    dep.Spec.Selector = some dep.Spec.Template.Labels ∧
    labelsForSimpleDB m.Name = [("app", "simpledb"), ("simpledb_cr", m.Name)] ∧
    ∀ k : String, (labelsForSimpleDB m.Name).lookup k =
      if k = "app" then some "simpledb"
      else if k = "simpledb_cr" then some m.Name
      else none := by
  obtain ⟨refs, hdepEq⟩ := deploymentForSimpleDB_ok r m dep hbuild
  refine ⟨by rw [hdepEq], by rw [hdepEq], by rw [hdepEq], rfl, ?_⟩
  intro k
  by_cases h1 : k = "app"
  · subst h1
    simp [labelsForSimpleDB, List.lookup]
  · by_cases h2 : k = "simpledb_cr"
    · subst h2
      simp [labelsForSimpleDB, List.lookup]
    · have hb1 : (k == "app") = false := by simpa using h1
      have hb2 : (k == "simpledb_cr") = false := by simpa using h2
      simp [labelsForSimpleDB, List.lookup, h1, h2, hb1, hb2]

/-- Witness for C13 as amended: the labels of the Deployment built for the sample object. -/
theorem deploymentForSimpleDB_labels_witness :
    labelsForSimpleDB sampleDB.Name = [("app", "simpledb"), ("simpledb_cr", sampleDB.Name)] :=
  (deploymentForSimpleDB_labels sampleReconciler sampleDB _ rfl).2.2.2.1

/-- C13, as stated, fails: the labels attached for the object named "orders-db" bind no
key "owner"; the name is bound to the key "simpledb_cr". -/
theorem labels_bind_no_owner_key :
    (labelsForSimpleDB "orders-db").lookup "owner" = none ∧
    [("app", "simpledb"), ("owner", "orders-db")].lookup "owner" = some "orders-db" ∧
    (labelsForSimpleDB "orders-db").lookup "simpledb_cr" = some "orders-db" ∧
    labelsForSimpleDB "orders-db" ≠ [("app", "simpledb"), ("owner", "orders-db")] ∧
    (match deploymentForSimpleDB sampleReconciler sampleDB with
      | .ok dep => dep.Spec.Template.Labels.lookup "owner"
      | .error _ => some "") = none := by
  decide

/-! ## More facts about `SetStatusCondition` -/

theorem SetStatusCondition_nodup (conds : List Condition) (c : Condition) (t : Time)
    (huniq : (conds.map (fun x => x.Type_)).Nodup) :
    ((SetStatusCondition conds c t).map (fun x => x.Type_)).Nodup := by
  cases hf : FindStatusCondition conds c.Type_ with
  | none =>
    have hnot : c.Type_ ∉ conds.map (fun x => x.Type_) := by
      intro hmem
      obtain ⟨e, he, hte⟩ := List.mem_map.mp hmem
      obtain ⟨e', he'⟩ := FindStatusCondition_isSome_of_mem conds c.Type_ e he hte
      rw [hf] at he'
      cases he'
    have hmap : (SetStatusCondition conds c t).map (fun x => x.Type_) =
        conds.map (fun x => x.Type_) ++ [c.Type_] := by
      simp only [SetStatusCondition, hf, List.map_append, List.map_cons, List.map_nil]
      split <;> rfl
    rw [hmap, List.nodup_append]
    refine ⟨huniq, List.nodup_singleton _, ?_⟩
    intro a ha hb
    rw [List.mem_singleton] at hb
    exact hnot (hb ▸ ha)
  | some e =>
    rw [SetStatusCondition_present conds c e t hf,
      map_type_updateFirst _ _ (fun x => overwriteCondition_type c x t)]
    exact huniq

theorem FindStatusCondition_SetStatusCondition (conds : List Condition) (c : Condition)
    (t : Time) :
    ∃ e, FindStatusCondition (SetStatusCondition conds c t) c.Type_ = some e ∧
      e.Status = c.Status ∧ e.Reason = c.Reason ∧ e.Message = c.Message := by
  cases hf : FindStatusCondition conds c.Type_ with
  | none =>
    by_cases hz : c.LastTransitionTime.IsZero = true
    · refine ⟨{ c with LastTransitionTime := t }, ?_, rfl, rfl, rfl⟩
      simp only [SetStatusCondition, hf, hz, if_true]
      exact FindStatusCondition_append_new conds { c with LastTransitionTime := t } hf
    · refine ⟨c, ?_, rfl, rfl, rfl⟩
      simp only [SetStatusCondition, hf, hz, Bool.false_eq_true, if_false]
      exact FindStatusCondition_append_new conds c hf
  | some e =>
    refine ⟨overwriteCondition c t e, ?_, overwriteCondition_fields c e t⟩
    rw [SetStatusCondition_present conds c e t hf]
    exact FindStatusCondition_updateFirst c.Type_ _
      (fun x => overwriteCondition_type c x t) conds e hf

theorem readyCondition_status_reason (b : Bool) (now1 now2 : Nat) :
    (readyCondition b now1).Status = (readyCondition b now2).Status ∧
    (readyCondition b now1).Reason = (readyCondition b now2).Reason := by
  cases b <;> exact ⟨rfl, rfl⟩

theorem writtenConditions_some {σ : Type} (p : Pass σ) (cs : List Condition)
    (h : p.writtenConditions = some cs) :
    ∃ obj res, Call.StatusUpdate obj res ∈ p.calls ∧ obj.Status.Conditions = cs := by
  obtain ⟨c, hc, hfc⟩ := List.exists_of_findSome?_eq_some h
  cases c with
  | StatusUpdate obj res =>
    simp only [Option.some.injEq] at hfc
    exact ⟨obj, res, hc, hfc⟩
  | GetSimpleDB _ _ => simp at hfc
  | GetDeployment _ _ => simp at hfc
  | Create _ _ => simp at hfc
  | Update _ _ => simp at hfc

/-! ## One condition per type -/

/-- C14: when the fetched object's condition list has at most one condition per type, so
has the list the object holds when the pass ends, and so has the list of every status write
the pass issues. -/
theorem Reconcile_preserves_unique_condition_types {σ : Type} (r : SimpleDBReconciler σ)
    (now : Nat) (req : Request) (s s1 : σ) (m : SimpleDB)
    (hget : r.Client.GetSimpleDB req.NamespacedName s = (.ok m, s1))
    (huniq : (m.Status.Conditions.map (fun c => c.Type_)).Nodup) :
    ((((Reconcile r now req s).conditionsAfter m.Status.Conditions)).map
      (fun c => c.Type_)).Nodup ∧
    ∀ obj res, Call.StatusUpdate obj res ∈ (Reconcile r now req s).calls →
      (obj.Status.Conditions.map (fun c => c.Type_)).Nodup := by
  have hwrite : ∀ obj res, Call.StatusUpdate obj res ∈ (Reconcile r now req s).calls →
      (obj.Status.Conditions.map (fun c => c.Type_)).Nodup := by
    intro obj res hc
    obtain ⟨found, s2, s3, _, _, hobj, _, _⟩ :=
      Reconcile_statusUpdate_inv r now req s s1 m obj res hget hc
    rw [hobj]
    exact SetStatusCondition_nodup _ _ _ huniq
  refine ⟨?_, hwrite⟩
  unfold Pass.conditionsAfter
  cases hw : (Reconcile r now req s).writtenConditions with
  | none => exact huniq
  | some cs =>
    obtain ⟨obj, res, hc, hcs⟩ := writtenConditions_some _ cs hw
    simp only []
    rw [← hcs]
    exact hwrite obj res hc

/-- Witness for C14: the sample object with a Progressing and a stale Ready condition; the
written list holds the same two types. -/
theorem Reconcile_preserves_unique_condition_types_witness :
    (((Reconcile
        (fixedReconciler (.ok (sampleDBWith [progressing, restoredReady]))
          (.ok (sampleDeployment (some 3) 3 2 2)) none none none)
        100 sampleReq ()).conditionsAfter [progressing, restoredReady]).map
      (fun c => c.Type_)).Nodup :=
  (Reconcile_preserves_unique_condition_types
    (fixedReconciler (.ok (sampleDBWith [progressing, restoredReady]))
      (.ok (sampleDeployment (some 3) 3 2 2)) none none none)
    100 sampleReq () () (sampleDBWith [progressing, restoredReady]) rfl (by decide)).1

/-! ## Replica counts below one -/

/-- C15, as amended: `Reconcile` does not check `Spec.Replicas`. For an object whose
`Spec.Replicas` is less than 1, a pass returns an error only when a backend call answered
that error or the builder failed with it; and when the Deployment is NotFound and the
builder and `Create` succeed, the pass issues the `Create` with `Spec.Replicas` copied and
returns Requeue=true with no error. -/
theorem Reconcile_does_not_check_replicas {σ : Type} (r : SimpleDBReconciler σ) (now : Nat)
    (req : Request) (s s1 : σ) (m : SimpleDB)
    (hget : r.Client.GetSimpleDB req.NamespacedName s = (.ok m, s1))
    (_hlt : m.Spec.Replicas < 1) :
    (∀ res e, (Reconcile r now req s).outcome = .returned res (some e) →
      (∃ c ∈ (Reconcile r now req s).calls, c.err = some e) ∨
        deploymentForSimpleDB r m = .error e) ∧
    (∀ err s2 dep s3,
      r.Client.GetDeployment ⟨m.Namespace, m.Name⟩ s1 = (.error err, s2) →
      err.IsNotFound = true →
      deploymentForSimpleDB r m = .ok dep →
      r.Client.Create dep s2 = (none, s3) →
      (Reconcile r now req s).outcome = .returned { Requeue := true } none ∧
      (Reconcile r now req s).calls.filter Call.isWrite = [.Create dep none] ∧
      dep.Spec.Replicas = some m.Spec.Replicas) := by
  constructor
  · intro res0 e hout
    rcases hdep : r.Client.GetDeployment ⟨m.Namespace, m.Name⟩ s1 with ⟨err | found, s2⟩
    · cases hnf : err.IsNotFound with
      | false =>
        rw [Reconcile_getDeployment_error r now req s s1 s2 m err hget hdep hnf] at hout ⊢
        simp only [Outcome.returned.injEq, Option.some.injEq] at hout
        exact Or.inl ⟨_, List.mem_cons_of_mem _ (List.mem_singleton.mpr rfl), by
          simp [Call.err, hout.2]⟩
      | true =>
        cases hbuild : deploymentForSimpleDB r m with
        | error e' =>
          rw [Reconcile_build_error r now req s s1 s2 m err e' hget hdep hnf hbuild] at hout
          simp only [Outcome.returned.injEq, Option.some.injEq] at hout
          exact Or.inr (by rw [hout.2])
        | ok dep =>
          rcases hcreate : r.Client.Create dep s2 with ⟨res', s3⟩
          rw [Reconcile_create r now req s s1 s2 s3 m err dep res' hget hdep hnf hbuild
            hcreate] at hout ⊢
          simp only [Outcome.returned.injEq] at hout
          exact Or.inl ⟨.Create dep res', by simp, by simp [Call.err, hout.2]⟩
    · cases hrep : found.Spec.Replicas with
      | none =>
        rw [Reconcile_nil_replicas r now req s s1 s2 m found hget hdep hrep] at hout
        cases hout
      | some n =>
        by_cases hne : n = m.Spec.Replicas
        · subst hne
          rw [Reconcile_status r now req s s1 s2 m found hget hdep hrep] at hout ⊢
          rcases reconcileStatus_paths r now m
            (readyCondition (ready found m.Spec.Replicas) now)
            [.GetSimpleDB req.NamespacedName none, .GetDeployment ⟨m.Namespace, m.Name⟩ none]
            s2 with h | ⟨res', s3, h⟩
          · rw [h] at hout
            simp at hout
          · rw [h] at hout ⊢
            simp only [Outcome.returned.injEq] at hout
            exact Or.inl ⟨_, List.mem_append_right _ (List.mem_singleton.mpr rfl), by
              simp [Call.err, hout.2]⟩
        · rcases hupdate : r.Client.Update
            { found with Spec := { found.Spec with Replicas := some m.Spec.Replicas } } s2
            with ⟨res', s3⟩
          rw [Reconcile_update r now req s s1 s2 s3 m found n res' hget hdep hrep hne
            hupdate] at hout ⊢
          simp only [Outcome.returned.injEq] at hout
          exact Or.inl ⟨_, List.mem_cons_of_mem _ (List.mem_cons_of_mem _
            (List.mem_singleton.mpr rfl)), by simp [Call.err, hout.2]⟩
  · intro err s2 dep s3 hdep hnf hbuild hcreate
    rw [Reconcile_create r now req s s1 s2 s3 m err dep none hget hdep hnf hbuild hcreate]
    obtain ⟨refs, hdepEq⟩ := deploymentForSimpleDB_ok r m dep hbuild
    refine ⟨by simp, by simp [Call.isWrite], by rw [hdepEq]⟩

/-- Witness for C15 as amended: the sample object asking for 0 replicas, with no Deployment
stored; the pass creates the Deployment. -/
theorem Reconcile_does_not_check_replicas_witness :
    (Reconcile sampleReconciler 100 sampleReq ⟨some (sampleDBOf 0), none⟩).outcome =
      .returned { Requeue := true } none :=
  ((Reconcile_does_not_check_replicas sampleReconciler 100 sampleReq
      ⟨some (sampleDBOf 0), none⟩ ⟨some (sampleDBOf 0), none⟩ (sampleDBOf 0)
      (by simp [sampleReconciler, faithfulClient, sampleDBOf, sampleDB, sampleReq])
      (by decide)).2
    errNotFound ⟨some (sampleDBOf 0), none⟩ _ ⟨some (sampleDBOf 0), some (reflectReplicas _)⟩
    (by simp [sampleReconciler, faithfulClient]) rfl rfl rfl).1

/-- C15, as stated, fails: for the sample object asking for 0 replicas and no Deployment
stored, the pass returns Requeue=true with no error and issues a `Create` of a Deployment
that requests 0 replicas; for -2 replicas and a Deployment requesting 3, it issues an
`Update` to -2. -/
theorem Reconcile_accepts_zero_replicas :
    (sampleDBOf 0).Spec.Replicas < 1 ∧
    (Reconcile sampleReconciler 100 sampleReq ⟨some (sampleDBOf 0), none⟩).outcome =
      .returned { Requeue := true } none ∧
    ((Reconcile sampleReconciler 100 sampleReq ⟨some (sampleDBOf 0), none⟩).calls.filter
        Call.isWrite).map
      (fun c => match c with
        | .Create dep res => (dep.Spec.Replicas, res)
        | _ => (none, none)) = [(some 0, none)] ∧
    (Reconcile sampleReconciler 100 sampleReq
      ⟨some (sampleDBOf (-2)), some (sampleDeployment (some 3) 3 3 3)⟩).calls.filter
        Call.isWrite = [.Update (sampleDeployment (some (-2)) 3 3 3) none] := by
  decide

/-! ## A Deployment without a replica count -/

/-- C16 fails on the code: for a fetched Deployment whose `Spec.Replicas` is nil, the
comparison of step 4 dereferences the nil pointer; the pass ends there, after the two
reads, with neither a result nor an error value. -/
theorem Reconcile_dereferences_nil_replicas :
    (sampleDeployment none 0 0 0).Spec.Replicas = none ∧
    (Reconcile
        (fixedReconciler (.ok sampleDB) (.ok (sampleDeployment none 0 0 0)) none none none)
        100 sampleReq ()).outcome = .nilDereference ∧
    (Reconcile
        (fixedReconciler (.ok sampleDB) (.ok (sampleDeployment none 0 0 0)) none none none)
        100 sampleReq ()).calls =
      [.GetSimpleDB sampleReq.NamespacedName none,
        .GetDeployment ⟨"default", "orders-db"⟩ none] := by
  decide

/-! ## The pass after a status write -/

/-- C17: let a pass issue a successful status write of `obj`. If the next pass (on any
backend, at any time) fetches an object with the same spec whose stored conditions are
those written, and a Deployment with the same requested replica count and the same
observed counters, then it issues the two reads and no write at all and returns the empty
result with no error; this for every condition list stored before the first pass. -/
theorem Reconcile_status_fixpoint {σ τ : Type} (r : SimpleDBReconciler σ)
    (r2 : SimpleDBReconciler τ) (now1 now2 : Nat) (req req2 : Request) (s s1 s2 : σ)
    (t t1 t2 : τ) (m m2 obj : SimpleDB) (found found2 : Deployment)
    (hget : r.Client.GetSimpleDB req.NamespacedName s = (.ok m, s1))
    (hdep : r.Client.GetDeployment ⟨m.Namespace, m.Name⟩ s1 = (.ok found, s2))
    (hc : Call.StatusUpdate obj none ∈ (Reconcile r now1 req s).calls)
    (hget2 : r2.Client.GetSimpleDB req2.NamespacedName t = (.ok m2, t1))
    (hspec : m2.Spec = m.Spec)
    (hstored : m2.Status.Conditions = obj.Status.Conditions)
    (hdep2 : r2.Client.GetDeployment ⟨m2.Namespace, m2.Name⟩ t1 = (.ok found2, t2))
    (hreplicas : found2.Spec.Replicas = found.Spec.Replicas)
    (hcounters : found2.Status = found.Status) :
    (Reconcile r2 now2 req2 t).outcome = .returned {} none ∧
    (Reconcile r2 now2 req2 t).calls =
      [.GetSimpleDB req2.NamespacedName none, .GetDeployment ⟨m2.Namespace, m2.Name⟩ none] ∧
    (Reconcile r2 now2 req2 t).calls.filter Call.isWrite = [] ∧
    (Reconcile r2 now2 req2 t).state = t2 := by
  obtain ⟨found', s2', s3, hdep', hrep, hobj, _, _⟩ :=
    Reconcile_statusUpdate_inv r now1 req s s1 m obj none hget hc
  rw [hdep] at hdep'
  cases hdep'
  have hrep2 : found2.Spec.Replicas = some m2.Spec.Replicas := by
    rw [hreplicas, hrep, hspec]
  have hready : ready found2 m2.Spec.Replicas = ready found m.Spec.Replicas := by
    simp only [ready, hcounters, hspec]
  have hconds : m2.Status.Conditions =
      SetStatusCondition m.Status.Conditions
        (readyCondition (ready found m.Spec.Replicas) now1) (.unix now1) := by
    rw [hstored, hobj]
  obtain ⟨e, hfind, hst, hre, _⟩ := FindStatusCondition_SetStatusCondition
    m.Status.Conditions (readyCondition (ready found m.Spec.Replicas) now1) (.unix now1)
  rw [readyCondition_type, ← hconds] at hfind
  have hsr := readyCondition_status_reason (ready found m.Spec.Replicas) now1 now2
  rw [Reconcile_status r2 now2 req2 t t1 t2 m2 found2 hget2 hdep2 hrep2, hready,
    reconcileStatus_skip r2 now2 m2 _ e _ t2 hfind (by rw [hst, hsr.1]) (by rw [hre, hsr.2])]
  simp [Call.isWrite]

/-- Witness for C17: on the faithful backend, the pass at time 100 writes the Ready
condition of the sample object and the pass at time 200 on the state it left writes
nothing and leaves that state as it is. -/
theorem Reconcile_status_fixpoint_witness :
    (Reconcile sampleReconciler 200 sampleReq
      (Reconcile sampleReconciler 100 sampleReq
        ⟨some (sampleDBWith [progressing]), some (sampleDeployment (some 3) 3 3 3)⟩).state).calls
      = [.GetSimpleDB sampleReq.NamespacedName none,
          .GetDeployment ⟨"default", "orders-db"⟩ none] ∧
    (Reconcile sampleReconciler 200 sampleReq
      (Reconcile sampleReconciler 100 sampleReq
        ⟨some (sampleDBWith [progressing]), some (sampleDeployment (some 3) 3 3 3)⟩).state).state
      = (Reconcile sampleReconciler 100 sampleReq
        ⟨some (sampleDBWith [progressing]), some (sampleDeployment (some 3) 3 3 3)⟩).state :=
  have h := Reconcile_status_fixpoint sampleReconciler sampleReconciler 100 200 sampleReq
    sampleReq
    ⟨some (sampleDBWith [progressing]), some (sampleDeployment (some 3) 3 3 3)⟩
    ⟨some (sampleDBWith [progressing]), some (sampleDeployment (some 3) 3 3 3)⟩
    ⟨some (sampleDBWith [progressing]), some (sampleDeployment (some 3) 3 3 3)⟩
    (Reconcile sampleReconciler 100 sampleReq
      ⟨some (sampleDBWith [progressing]), some (sampleDeployment (some 3) 3 3 3)⟩).state
    (Reconcile sampleReconciler 100 sampleReq
      ⟨some (sampleDBWith [progressing]), some (sampleDeployment (some 3) 3 3 3)⟩).state
    (Reconcile sampleReconciler 100 sampleReq
      ⟨some (sampleDBWith [progressing]), some (sampleDeployment (some 3) 3 3 3)⟩).state
    (sampleDBWith [progressing])
    (sampleDBWith [progressing, readyCondition true 100])
    (sampleDBWith [progressing, readyCondition true 100])
    (sampleDeployment (some 3) 3 3 3) (sampleDeployment (some 3) 3 3 3)
    rfl rfl (by decide) rfl rfl rfl rfl rfl rfl
  ⟨h.2.1, h.2.2.2⟩

/-! ## What a status write leaves alone -/

theorem getElem?_updateFirst_other (p : Condition → Bool) (f : Condition → Condition)
    (conds : List Condition) (i : Nat) (c : Condition)
    (hi : conds[i]? = some c) (hp : p c = false) :
    (updateFirst p f conds)[i]? = some c := by
  induction conds generalizing i with
  | nil => simp at hi
  | cons d ds ih =>
    unfold updateFirst
    cases i with
    | zero =>
      simp only [List.getElem?_cons_zero, Option.some.injEq] at hi
      subst hi
      simp [hp]
    | succ j =>
      simp only [List.getElem?_cons_succ] at hi
      split
      · simpa using hi
      · simpa using ih j hi

/-- C18: the object a pass hands to its status write has the name, namespace and spec of
the fetched object; every stored condition of a type other than "Ready" is in the written
list unchanged, at the same index and so in the same order; when a Ready condition is
stored the written list has the same types at the same positions, and when none is stored
the written list is the stored list with one Ready condition appended. -/
theorem Reconcile_status_write_frame {σ : Type} (r : SimpleDBReconciler σ) (now : Nat)
    (req : Request) (s s1 : σ) (m obj : SimpleDB) (res : Option Err)
    (hget : r.Client.GetSimpleDB req.NamespacedName s = (.ok m, s1))
    (hc : Call.StatusUpdate obj res ∈ (Reconcile r now req s).calls) :
    obj.Name = m.Name ∧ obj.Namespace = m.Namespace ∧ obj.UID = m.UID ∧ obj.Spec = m.Spec ∧
    obj.Status.Conditions.filter (fun c => c.Type_ != "Ready") =
      m.Status.Conditions.filter (fun c => c.Type_ != "Ready") ∧
    (∀ (i : Nat) (c : Condition), m.Status.Conditions[i]? = some c → c.Type_ ≠ "Ready" →
      obj.Status.Conditions[i]? = some c) ∧
    ((∃ e ∈ m.Status.Conditions, e.Type_ = "Ready") →
      obj.Status.Conditions.map (fun c => c.Type_) =
        m.Status.Conditions.map (fun c => c.Type_)) ∧
    ((∀ e ∈ m.Status.Conditions, e.Type_ ≠ "Ready") →
      ∃ c, c.Type_ = "Ready" ∧ obj.Status.Conditions = m.Status.Conditions ++ [c]) := by
  obtain ⟨found, s2, s3, _, _, hobj, _, _⟩ :=
    Reconcile_statusUpdate_inv r now req s s1 m obj res hget hc
  have hty := readyCondition_type (ready found m.Spec.Replicas) now
  have htm := readyCondition_time (ready found m.Spec.Replicas) now
  have hz : (readyCondition (ready found m.Spec.Replicas) now).LastTransitionTime.IsZero
      = false := by rw [htm]; rfl
  have hconds : obj.Status.Conditions =
      SetStatusCondition m.Status.Conditions
        (readyCondition (ready found m.Spec.Replicas) now) (.unix now) := by
    rw [hobj]
  refine ⟨by rw [hobj], by rw [hobj], by rw [hobj], by rw [hobj], ?_, ?_, ?_, ?_⟩
  · rw [hconds]
    cases hf : FindStatusCondition m.Status.Conditions "Ready" with
    | none =>
      rw [SetStatusCondition_absent _ _ _ hz (by rw [hty]; exact hf)]
      simp [List.filter_append, hty]
    | some e =>
      rw [SetStatusCondition_present _ _ e _ (by rw [hty]; exact hf), hty]
      exact filter_other_updateFirst "Ready" _ (fun c => overwriteCondition_type _ c _) _
  · intro i c hi hne
    rw [hconds]
    cases hf : FindStatusCondition m.Status.Conditions "Ready" with
    | none =>
      rw [SetStatusCondition_absent _ _ _ hz (by rw [hty]; exact hf)]
      have hlt : i < m.Status.Conditions.length := by
        by_contra hge
        rw [List.getElem?_eq_none (by omega)] at hi
        cases hi
      rw [List.getElem?_append_left hlt]
      exact hi
    | some e =>
      rw [SetStatusCondition_present _ _ e _ (by rw [hty]; exact hf), hty]
      exact getElem?_updateFirst_other _ _ _ i c hi (by simpa using hne)
  · rintro ⟨e, hmem, htype⟩
    obtain ⟨e', hf⟩ := FindStatusCondition_isSome_of_mem _ "Ready" e hmem htype
    rw [hconds, SetStatusCondition_present _ _ e' _ (by rw [hty]; exact hf)]
    exact map_type_updateFirst _ _ (fun c => overwriteCondition_type _ c _) _
  · intro habs
    refine ⟨readyCondition (ready found m.Spec.Replicas) now, hty, ?_⟩
    rw [hconds]
    exact SetStatusCondition_absent _ _ _ hz
      (by rw [hty]; exact FindStatusCondition_none _ _ habs)

/-- Witness for C18: the stale Ready condition between two conditions of other types is
overwritten where it stands; the other two are written as stored. -/
theorem Reconcile_status_write_frame_witness :
    (sampleDBWith
      [progressing,
        { Type_ := "Ready", Status := ConditionFalse, Reason := "Creating",
          Message := "Database is being created", LastTransitionTime := .unix 100 },
        { progressing with Type_ := "Degraded" }]).Status.Conditions.filter
        (fun c => c.Type_ != "Ready") =
      (sampleDBWith
        [progressing, restoredReady,
          { progressing with Type_ := "Degraded" }]).Status.Conditions.filter
        (fun c => c.Type_ != "Ready") :=
  (Reconcile_status_write_frame
    (fixedReconciler
      (.ok (sampleDBWith [progressing, restoredReady, { progressing with Type_ := "Degraded" }]))
      (.ok (sampleDeployment (some 3) 3 2 2)) none none none)
    100 sampleReq () ()
    (sampleDBWith [progressing, restoredReady, { progressing with Type_ := "Degraded" }])
    (sampleDBWith
      [progressing,
        { Type_ := "Ready", Status := ConditionFalse, Reason := "Creating",
          Message := "Database is being created", LastTransitionTime := .unix 100 },
        { progressing with Type_ := "Degraded" }])
    none rfl (by decide)).2.2.2.2.1

end SimpleDBOperator
